import Mathlib

/-!
Verification of the MicroBit fiber scheduler core
(`source/MicroBitFiber.cpp`).

The C++ scheduler state is shallowly embedded as a `State` record: the
per-fiber control blocks live in a total map `fibers : FiberId → Fiber`
(a `Fiber *` is modelled as a `FiberId`, the null pointer as `Option`),
and the four global queue heads (`runQueue`, `sleepQueue`, `waitQueue`,
`fiberPool`) live in `head : QueueId → Option FiberId`.  Machine words
are `Nat` with an explicit `% 2 ^ 32` where 32-bit overflow matters.
Functions that dereference a possibly-null pointer return `Option State`,
with `none` marking the null dereference (undefined behaviour in C).

Hardware reads (the stack-depth computation from `__get_MSP()`), the heap
(success of `new` / `malloc`, the address a `malloc` returns) and the
architecture context-switch primitives (`save_context`,
`save_register_context`, `swap_context`) are external collaborators in the
specification; they enter the model as explicit parameters (`HW`, `Alloc`)
and as an abstract snapshot counter stored in the `tcb` field.
-/

set_option autoImplicit false

namespace MicroBitFiber

/-- A fiber identifier: stands for a `Fiber *` value; the null pointer is
represented by `Option FiberId`. -/
abbrev FiberId := Nat

/-- The four global fiber queues of `MicroBitFiber.cpp`: `runQueue`,
`sleepQueue`, `waitQueue` and `fiberPool`.  A `Fiber **queue` back-pointer
always points at one of these heads, so it is modelled as a `QueueId`. -/
inductive QueueId where
  | run
  | sleep
  | wait
  | pool
deriving DecidableEq, Repr

/-- The per-fiber control block (`struct Fiber`): doubly-linked intrusive
linkage (`next`, `prev`), the back-pointer `queue` to the owning queue head,
the 32-bit scratch word `context`, the 8-bit `flags`, the stack region
bounds, and the saved register context `tcb` (an abstract snapshot value;
the register contents are outside the model). -/
@[ext]
structure Fiber where
  next : Option FiberId
  prev : Option FiberId
  queue : Option QueueId
  context : Nat
  flags : Nat
  stack_bottom : Nat
  stack_top : Nat
  tcb : Nat
deriving DecidableEq, Repr

/-- The process-wide scheduler state: the fiber store, the four queue
heads, and the globals `currentFiber`, `forkedFiber`, `idle`,
`emptyContext`, `ticks`, `fiber_flags`.  `mem` models the words written at
the base of a fiber stack by `create_fiber` (the trampoline frame) and
`freed` records the addresses passed to `free`. -/
@[ext]
structure State where
  fibers : FiberId → Fiber
  head : QueueId → Option FiberId
  currentFiber : Option FiberId
  forkedFiber : Option FiberId
  idle : Option FiberId
  emptyContext : Option Nat
  ticks : Nat
  fiber_flags : Nat
  mem : Nat → Nat
  freed : List Nat

/-- Modelled from the spec: the flags byte has three independent bits FOB,
PARENT and CHILD (the numeric values are defined in the `MicroBitFiber.h`
header, which is not part of the sources here; any three distinct bits are
equivalent). -/
def MICROBIT_FIBER_FLAG_FOB : Nat := 1

/-- Modelled from the spec: the PARENT bit of the fiber flags byte. -/
def MICROBIT_FIBER_FLAG_PARENT : Nat := 2

/-- Modelled from the spec: the CHILD bit of the fiber flags byte. -/
def MICROBIT_FIBER_FLAG_CHILD : Nat := 4

/-- Modelled from the spec: `ID_ANY = 0` (sentinel event source matching
any source). -/
def MICROBIT_ID_ANY : Nat := 0

/-- Modelled from the spec: `VALUE_ANY = 0` (sentinel event value matching
any value). -/
def MICROBIT_EVT_ANY : Nat := 0

/-- Modelled from the spec: the "data read pending" bit tested on
`fiber_flags` by `schedule()`; the numeric value lives in `MicroBit.h`
(not in the sources here), any fixed bit is equivalent. -/
def MICROBIT_FLAG_DATA_READ : Nat := 1

/-- Modelled from the spec: the fixed compile-time stack allocation size
`FIBER_STACK_SIZE` used by `getFiberContext` (defined in the header, not
in the sources here). -/
def FIBER_STACK_SIZE : Nat := 1024

/-- Modelled from the spec: the function-pointer value of `release_fiber`,
the default completion routine of `create_fiber` (the default argument is
declared in the header, not in the sources here).  Only its non-nullness
matters. -/
def RELEASE_FIBER_FP : Nat := 1

/-- Store a fiber record at identifier `i` (a write through a `Fiber *`). -/
def updFiber (s : State) (i : FiberId) (f : Fiber) : State :=
  { s with fibers := fun j => if j = i then f else s.fibers j }

/-- Store a queue head (a write through a `Fiber **`). -/
def setHead (s : State) (q : QueueId) (v : Option FiberId) : State :=
  { s with head := fun r => if r = q then v else s.head r }

/-- A 32-bit store to address `a` (used for the trampoline frame written
at the base of a fiber stack). -/
def writeMem (s : State) (a v : Nat) : State :=
  { s with mem := fun b => if b = a then v else s.mem b }

/-- `queue_fiber(f, queue)`: add fiber `f` at the head of the given queue
(source lines 48-62).  The C statements are performed in order:
`f->queue = queue; f->next = *queue; f->prev = NULL;
if (*queue != NULL) (*queue)->prev = f; *queue = f;`. -/
def queue_fiber (f : FiberId) (q : QueueId) (s : State) : State :=
  let s1 := updFiber s f
    { s.fibers f with queue := some q, next := s.head q, prev := none }
  let s2 :=
    match s1.head q with
    | some g => updFiber s1 g { s1.fibers g with prev := some f }
    | none => s1
  setHead s2 q (some f)

/-- `dequeue_fiber(f)`: remove fiber `f` from whichever queue it is on
(source lines 68-92).  A no-op when `f->queue == NULL`.  Otherwise:
`if (f->prev != NULL) f->prev->next = f->next; else *(f->queue) = f->next;
if (f->next) f->next->prev = f->prev;
f->next = NULL; f->prev = NULL; f->queue = NULL;`
with every field re-read from memory at its point of use. -/
def dequeue_fiber (f : FiberId) (s : State) : State :=
  match (s.fibers f).queue with
  | none => s
  | some q =>
    let s1 :=
      match (s.fibers f).prev with
      | some p => updFiber s p { s.fibers p with next := (s.fibers f).next }
      | none => setHead s q (s.fibers f).next
    let s2 :=
      match (s1.fibers f).next with
      | some n => updFiber s1 n { s1.fibers n with prev := (s1.fibers f).prev }
      | none => s1
    updFiber s2 f { s2.fibers f with next := none, prev := none, queue := none }

/-- The heap behaviour visible to `getFiberContext`: whether `new Fiber()`
succeeds, whether the stack `malloc` succeeds, which (fresh) identifier
the new record gets and which address its stack gets. -/
structure Alloc where
  heapOk : Bool
  stackOk : Bool
  freshId : FiberId
  stackBase : Nat

/-- `getFiberContext()` (source lines 97-132): pop the head of the fiber
pool if available, otherwise allocate a new record plus a
`FIBER_STACK_SIZE` stack from the heap; return null on exhaustion.  All
paths zero the flags of the returned record (`f->flags = 0`). -/
def getFiberContext (alloc : Alloc) (s : State) : Option FiberId × State :=
  match s.head QueueId.pool with
  | some f =>
    let s1 := dequeue_fiber f s
    (some f, updFiber s1 f { s1.fibers f with flags := 0 })
  | none =>
    if alloc.heapOk then
      if alloc.stackOk then
        let nf : Fiber :=
          { next := none, prev := none, queue := none, context := 0,
            flags := 0, stack_bottom := alloc.stackBase,
            stack_top := alloc.stackBase + FIBER_STACK_SIZE, tcb := 0 }
        (some alloc.freshId, updFiber s alloc.freshId nf)
      else
        (none, s)
    else
      (none, s)

/-- The hardware context a call into the scheduler runs with:
`stackDepth` is `CORTEX_M0_STACK_BASE - __get_MSP()` (a hardware register
read, so an input of the model), `newBase` is the address `malloc` returns
when `verify_stack_size` reallocates, and `growFuel` bounds the doubling
loop (the loop itself has no bound in C; insufficient fuel models
non-termination as `none`). -/
structure HW where
  stackDepth : Nat
  newBase : Nat
  growFuel : Nat

/-- The doubling loop of `verify_stack_size` (source lines 588-589):
`while (bufferSize < stackDepth) bufferSize = bufferSize << 1;` on a
32-bit `bufferSize`.  Fuel exhaustion (`none`) models non-termination. -/
def growBuffer : Nat → Nat → Nat → Option Nat
  | 0, _, _ => none
  | fuel + 1, b, d => if b < d then growBuffer fuel (b * 2 % 2 ^ 32) d else some b

/-- `verify_stack_size(f)` (source lines 575-595): compare the record's
buffer size `stack_top - stack_bottom` with the live stack depth; if too
small, double the buffer size until it fits, `free` the old allocation and
re-allocate.  (The C code computes
`stackDepth = CORTEX_M0_STACK_BASE - __get_MSP()`; that hardware read is
the `hw.stackDepth` input.) -/
def verify_stack_size (hw : HW) (s : State) (f : FiberId) : Option State :=
  let stackDepth := hw.stackDepth
  let bufferSize := (s.fibers f).stack_top - (s.fibers f).stack_bottom
  if bufferSize < stackDepth then
    match growBuffer hw.growFuel bufferSize stackDepth with
    | none => none
    | some b =>
      let s1 := { s with freed := (s.fibers f).stack_bottom :: s.freed }
      some (updFiber s1 f
        { s1.fibers f with
          stack_bottom := hw.newBase
          stack_top := (hw.newBase + b) % 2 ^ 32 })
  else
    some s

/-- Effect of the architecture primitive `save_context(&f->tcb, stack_top)`
on the modelled state: a fresh register snapshot is stored in `f`'s TCB.
The snapshot contents are outside the model; bumping the abstract `tcb`
value records that the slot was overwritten. -/
def save_context_eff (s : State) (f : FiberId) : State :=
  updFiber s f { s.fibers f with tcb := (s.fibers f).tcb + 1 }

/-- Effect of `save_register_context(&f->tcb)` on the modelled state (same
abstraction as `save_context_eff`). -/
def save_register_context_eff (s : State) (f : FiberId) : State :=
  updFiber s f { s.fibers f with tcb := (s.fibers f).tcb + 1 }

/-- Effect of `swap_context(&old->tcb, &new->tcb, ..)`: the outgoing
fiber's register state is saved into its TCB slot; restoring the incoming
context transfers control but does not change the modelled state. -/
def swap_context_eff (s : State) (old : FiberId) : State :=
  updFiber s old { s.fibers old with tcb := (s.fibers old).tcb + 1 }

/-- The runnable-selection block of `schedule()` (source lines 633-644),
run with `c = currentFiber`:
if the run queue is empty or the data-read flag is set, pick `idle`;
else if the current fiber is on the run queue, pick `c->next`
(or the run-queue head when `c->next == NULL`); else pick the head. -/
def runnable_select (s : State) (c : FiberId) : Option FiberId :=
  if s.head QueueId.run = none ∨ s.fiber_flags &&& MICROBIT_FLAG_DATA_READ ≠ 0 then
    s.idle
  else if (s.fibers c).queue = some QueueId.run then
    match (s.fibers c).next with
    | none => s.head QueueId.run
    | some n => some n
  else
    s.head QueueId.run

/-- Modelled from the spec (claim wording, spec section 4.8 item (b)):
the runnable selection described by the specification, written
independently of the source; compared with `runnable_select`. -/
def runnable_select_spec (s : State) (c : FiberId) : Option FiberId :=
  if s.head QueueId.run = none ∨ s.fiber_flags &&& MICROBIT_FLAG_DATA_READ ≠ 0 then
    s.idle
  else if (s.fibers c).queue = some QueueId.run then
    if (s.fibers c).next = none then s.head QueueId.run else (s.fibers c).next
  else
    s.head QueueId.run

/-- `schedule()` (source lines 602-656).  `none` marks a null-pointer
dereference.  In the fork-on-block branch the code sets PARENT/CHILD,
saves the full context into the forked record, and - PARENT having just
been set - calls `restore_register_context(&currentFiber->tcb)`, which
transfers control back to the snapshot taken in `fork_on_block`; the
returned state is the machine state at that transfer.  (The `else return`
arm of that branch is executed only when the forked fiber is later resumed
from the context saved here; that resumption is modelled separately by
`fob_child_finish`.) -/
def schedule (hw : HW) (s : State) : Option State :=
  match s.currentFiber with
  | none => none
  | some old =>
    if (s.fibers old).flags &&& MICROBIT_FIBER_FLAG_FOB ≠ 0 then
      match s.forkedFiber with
      | none => none
      | some fk =>
        match verify_stack_size hw s fk with
        | none => none
        | some sA =>
          let sB := updFiber sA old
            { sA.fibers old with
              flags := (sA.fibers old).flags ||| MICROBIT_FIBER_FLAG_PARENT }
          let sC := updFiber sB fk
            { sB.fibers fk with
              flags := (sB.fibers fk).flags ||| MICROBIT_FIBER_FLAG_CHILD }
          some (save_context_eff sC fk)
    else
      let chosen := runnable_select s old
      let s5 := { s with currentFiber := chosen }
      if chosen = some old then
        some s5
      else
        match verify_stack_size hw s5 old with
        | none => none
        | some s6 =>
          match chosen with
          | none => none
          | some _ => some (swap_context_eff s6 old)

/-- `fiber_sleep(t)` (source lines 234-264): in fork-on-block mode,
allocate a forked fiber and block it instead (best effort: on allocation
failure keep the current fiber); store the wake-up time `ticks + t` in
`context`; move the blocked fiber from the run queue to the sleep queue;
enter the scheduler. -/
def fiber_sleep (t : Nat) (alloc : Alloc) (hw : HW) (s : State) : Option State :=
  match s.currentFiber with
  | none => none
  | some c =>
    let fs :=
      if (s.fibers c).flags &&& MICROBIT_FIBER_FLAG_FOB ≠ 0 then
        let r := getFiberContext alloc s
        let s1 := { r.2 with forkedFiber := r.1 }
        (match r.1 with | some fk => fk | none => c, s1)
      else
        (c, s)
    let f := fs.1
    let s1 := fs.2
    let s2 := updFiber s1 f
      { s1.fibers f with context := (s1.ticks + t) % 2 ^ 32 }
    let s3 := dequeue_fiber f s2
    let s4 := queue_fiber f QueueId.sleep s3
    schedule hw s4

/-- `fiber_wait_for_event(id, value)` (source lines 277-306): same shape
as `fiber_sleep`, but the wake condition packed into `context` is
`value << 16 | id` and the fiber moves to the wait queue. -/
def fiber_wait_for_event (id value : Nat) (alloc : Alloc) (hw : HW)
    (s : State) : Option State :=
  match s.currentFiber with
  | none => none
  | some c =>
    let fs :=
      if (s.fibers c).flags &&& MICROBIT_FIBER_FLAG_FOB ≠ 0 then
        let r := getFiberContext alloc s
        let s1 := { r.2 with forkedFiber := r.1 }
        (match r.1 with | some fk => fk | none => c, s1)
      else
        (c, s)
    let f := fs.1
    let s1 := fs.2
    let s2 := updFiber s1 f
      { s1.fibers f with context := (value <<< 16 ||| id) % 2 ^ 32 }
    let s3 := dequeue_fiber f s2
    let s4 := queue_fiber f QueueId.wait s3
    schedule hw s4

/-- The shared wake-up walk of `scheduler_tick` (source lines 178-190) and
`scheduler_event` (source lines 204-221): walk a queue following a `next`
snapshot taken before any mutation (`t = f->next`), and move every fiber
whose `context` word satisfies the wake condition to the run queue.  Both
C loops test a condition that depends only on `f->context` (and on loop
constants), so the condition is passed as `pred : Nat → Bool` on the
context word.  `fuel` bounds the walk (the C loop is bounded by the finite
acyclic list). -/
def wake_walk (pred : Nat → Bool) : State → Option FiberId → Nat → State
  | s, _, 0 => s
  | s, none, _ + 1 => s
  | s, some i, fuel + 1 =>
    let t := (s.fibers i).next
    let s1 :=
      if pred (s.fibers i).context then
        queue_fiber i QueueId.run (dequeue_fiber i s)
      else
        s
    wake_walk pred s1 t fuel

/-- `scheduler_tick()` (source lines 169-191): read the sleep-queue head,
advance the 32-bit millisecond counter by `FIBER_TICK_PERIOD_MS` (a header
constant, taken here as the `period` parameter), then wake every sleeping
fiber whose deadline has been reached (`ticks >= f->context`). -/
def scheduler_tick (period fuel : Nat) (s : State) : State :=
  let f0 := s.head QueueId.sleep
  let s1 := { s with ticks := (s.ticks + period) % 2 ^ 32 }
  wake_walk (fun ctx => decide (ctx ≤ s1.ticks)) s1 f0 fuel

/-- `scheduler_event(evt)` (source lines 198-221): walk the wait queue and
wake every fiber whose stored filter matches the event, where the filter
is extracted as `id = f->context & 0xFF` and
`value = (f->context & 0xFF00) >> 16` and the match rule is
`(id == MICROBIT_ID_ANY || id == evt.source) &&
 (value == MICROBIT_EVT_ANY || value == evt.value)`. -/
def scheduler_event (source value fuel : Nat) (s : State) : State :=
  wake_walk
    (fun ctx =>
      let id := ctx &&& 0xFF
      let v := (ctx &&& 0xFF00) >>> 16
      decide ((id = MICROBIT_ID_ANY ∨ id = source) ∧
              (v = MICROBIT_EVT_ANY ∨ v = value)))
    s (s.head QueueId.wait) fuel

/-- `create_fiber(entry_fn, completion_fn)` (source lines 443-484): null
checks, record allocation, the trampoline frame `[entry, completion]`
written at the stack base, TCB initialisation from the cached
`emptyContext` (building and caching it on the first call), and enqueue on
the run queue.  Function pointers are `Option Nat` (`none` is NULL). -/
def create_fiber (entry_fn completion_fn : Option Nat) (alloc : Alloc)
    (s : State) : Option FiberId × State :=
  if entry_fn = none ∨ completion_fn = none then
    (none, s)
  else
    match getFiberContext alloc s with
    | (none, s1) => (none, s1)
    | (some nf, s1) =>
      let s2 := writeMem s1 (s1.fibers nf).stack_bottom (entry_fn.getD 0)
      let s3 := writeMem s2 ((s2.fibers nf).stack_bottom + 4) (completion_fn.getD 0)
      let s4 :=
        match s3.emptyContext with
        | some ec => updFiber s3 nf { s3.fibers nf with tcb := ec }
        | none =>
          let sA := save_context_eff s3 nf
          { sA with emptyContext := some ((sA.fibers nf).tcb) }
      let s5 := queue_fiber nf QueueId.run s4
      (some nf, s5)

/-- `create_fiber(entry_fn, param, completion_fn)` (source lines 512-541):
the parameterised overload; trampoline frame `[entry, param, completion]`
at offsets 0, 4, 8, TCB copied from the cached `emptyContext` (the source
documents that the cache is always initialised before this overload runs). -/
def create_fiber_param (entry_fn : Option Nat) (param : Nat)
    (completion_fn : Option Nat) (alloc : Alloc) (s : State) :
    Option FiberId × State :=
  if entry_fn = none ∨ completion_fn = none then
    (none, s)
  else
    match getFiberContext alloc s with
    | (none, s1) => (none, s1)
    | (some nf, s1) =>
      let s2 := writeMem s1 (s1.fibers nf).stack_bottom (entry_fn.getD 0)
      let s3 := writeMem s2 ((s2.fibers nf).stack_bottom + 4) param
      let s4 := writeMem s3 ((s3.fibers nf).stack_bottom + 8) (completion_fn.getD 0)
      let s5 := updFiber s4 nf { s4.fibers nf with tcb := s4.emptyContext.getD 0 }
      let s6 := queue_fiber nf QueueId.run s5
      (some nf, s6)

/-- `release_fiber()` (source lines 559-567): move the current fiber from
its queue to the fiber pool, then enter the scheduler. -/
def release_fiber (hw : HW) (s : State) : Option State :=
  match s.currentFiber with
  | none => none
  | some c =>
    let s1 := dequeue_fiber c s
    let s2 := queue_fiber c QueueId.pool s1
    schedule hw s2

/-- The code of `fork_on_block` after the `save_register_context` snapshot
(source lines 342-359), re-enterable through the snapshot:
if PARENT is set we were resumed after forking - clear FOB and PARENT and
return; otherwise set FOB and run the handler.  `blocks` records whether
the handler calls `fiber_sleep t` (blocking) or returns directly; when it
blocks, the scheduler forks and restores the snapshot, so control
re-enters this code (the recursive call on `fuel`).  After a non-blocking
handler, clear FOB and, if CHILD is set, `release_fiber()`. -/
def fob_snapshot_entry (blocks : Bool) (t : Nat) (alloc : Alloc) (hw : HW)
    (c : FiberId) : Nat → State → Option State
  | 0, _ => none
  | fuel + 1, s =>
    if (s.fibers c).flags &&& MICROBIT_FIBER_FLAG_PARENT ≠ 0 then
      let s1 := updFiber s c
        { s.fibers c with
          flags := (s.fibers c).flags &&& (255 ^^^ MICROBIT_FIBER_FLAG_FOB) }
      let s2 := updFiber s1 c
        { s1.fibers c with
          flags := (s1.fibers c).flags &&& (255 ^^^ MICROBIT_FIBER_FLAG_PARENT) }
      some s2
    else
      let s1 := updFiber s c
        { s.fibers c with
          flags := (s.fibers c).flags ||| MICROBIT_FIBER_FLAG_FOB }
      if blocks then
        (fiber_sleep t alloc hw s1).bind (fob_snapshot_entry blocks t alloc hw c fuel)
      else
        let s2 := updFiber s1 c
          { s1.fibers c with
            flags := (s1.fibers c).flags &&& (255 ^^^ MICROBIT_FIBER_FLAG_FOB) }
        if (s2.fibers c).flags &&& MICROBIT_FIBER_FLAG_CHILD ≠ 0 then
          release_fiber hw s2
        else
          some s2

/-- `fork_on_block(entry_fn)` (source lines 319-360) as experienced by the
calling fiber: null check; if already in FOB mode, fall back to
`create_fiber(entry_fn)` (completion defaulting to `release_fiber`);
otherwise take the register snapshot and fall through into
`fob_snapshot_entry`. -/
def fork_on_block_model (entry_fn : Option Nat) (blocks : Bool) (t : Nat)
    (alloc : Alloc) (hw : HW) (fuel : Nat) (s : State) : Option State :=
  match s.currentFiber with
  | none => none
  | some c =>
    if entry_fn = none then
      some s
    else if (s.fibers c).flags &&& MICROBIT_FIBER_FLAG_FOB ≠ 0 then
      some (create_fiber entry_fn (some RELEASE_FIBER_FP) alloc s).2
    else
      fob_snapshot_entry blocks t alloc hw c fuel (save_register_context_eff s c)

/-- The tail of `fork_on_block` (source lines 354-359) as executed by a
forked CHILD fiber once the handler body it absorbed has run to
completion: clear FOB, and - CHILD being set - recycle the record through
`release_fiber()`. -/
def fob_child_finish (hw : HW) (s : State) : Option State :=
  match s.currentFiber with
  | none => none
  | some c =>
    let s1 := updFiber s c
      { s.fibers c with
        flags := (s.fibers c).flags &&& (255 ^^^ MICROBIT_FIBER_FLAG_FOB) }
    if (s1.fibers c).flags &&& MICROBIT_FIBER_FLAG_CHILD ≠ 0 then
      release_fiber hw s1
    else
      some s1

/-- `isChain s q pv cur L`: starting from the pointer `cur`, following
`next` links visits exactly the fibers of `L`, each linked into queue `q`
with correct `prev` back-links, the first one pointing back at `pv`, and
the last `next` being null.  `isChain s q none (s.head q) L` says queue
`q` holds exactly `L`, in order. -/
def isChain (s : State) (q : QueueId) : Option FiberId → Option FiberId → List FiberId → Prop
  | _, cur, [] => cur = none
  | pv, cur, i :: L =>
    cur = some i ∧ (s.fibers i).queue = some q ∧ (s.fibers i).prev = pv ∧
    isChain s q (some i) (s.fibers i).next L

/-! ### Concrete witness states -/

/-- A one-fiber scenario state: fiber `0` is current and alone on the run
queue; fiber `9` is the (off-queue) idle fiber. -/
def c1State : State :=
  { fibers := fun i =>
      if i = 0 then
        { next := none, prev := none, queue := some QueueId.run, context := 0,
          flags := 0, stack_bottom := 0, stack_top := 1024, tcb := 0 }
      else
        { next := none, prev := none, queue := none, context := 0,
          flags := 0, stack_bottom := 0, stack_top := 1024, tcb := 0 }
    head := fun q => if q = QueueId.run then some 0 else none
    currentFiber := some 0
    forkedFiber := none
    idle := some 9
    emptyContext := none
    ticks := 0
    fiber_flags := 0
    mem := fun _ => 0
    freed := [] }

/-- A scenario state for C2: fiber `0` is current, on the run queue, and
in fork-on-block mode (FOB set); the fiber pool is empty. -/
def c2State : State :=
  { fibers := fun i =>
      if i = 0 then
        { next := none, prev := none, queue := some QueueId.run, context := 0,
          flags := 1, stack_bottom := 0, stack_top := 1024, tcb := 0 }
      else
        { next := none, prev := none, queue := none, context := 0,
          flags := 0, stack_bottom := 0, stack_top := 1024, tcb := 0 }
    head := fun q => if q = QueueId.run then some 0 else none
    currentFiber := some 0
    forkedFiber := none
    idle := some 9
    emptyContext := none
    ticks := 0
    fiber_flags := 0
    mem := fun _ => 0
    freed := [] }

def c3State : State :=
  { fibers := fun i =>
      if i = 0 then
        { next := none, prev := none, queue := some QueueId.run, context := 0,
          flags := 0, stack_bottom := 0, stack_top := 1024, tcb := 0 }
      else if i = 1 then
        { next := some 2, prev := none, queue := some QueueId.sleep,
          context := 100, flags := 0, stack_bottom := 0, stack_top := 1024,
          tcb := 0 }
      else if i = 2 then
        { next := none, prev := some 1, queue := some QueueId.sleep,
          context := 200, flags := 0, stack_bottom := 0, stack_top := 1024,
          tcb := 0 }
      else
        { next := none, prev := none, queue := none, context := 0, flags := 0,
          stack_bottom := 0, stack_top := 1024, tcb := 0 }
    head := fun q =>
      if q = QueueId.run then some 0
      else if q = QueueId.sleep then some 1 else none
    currentFiber := some 0
    forkedFiber := none
    idle := some 9
    emptyContext := none
    ticks := 99
    fiber_flags := 0
    mem := fun _ => 0
    freed := [] }

/-- Witness for C4 at a concrete state: current fiber `0` on the run
queue with successor `1`; the selection picks `1`. -/
def c4State : State :=
  { fibers := fun i =>
      if i = 0 then
        { next := some 1, prev := none, queue := some QueueId.run, context := 0,
          flags := 0, stack_bottom := 0, stack_top := 1024, tcb := 0 }
      else
        { next := none, prev := some 0, queue := some QueueId.run, context := 0,
          flags := 0, stack_bottom := 0, stack_top := 1024, tcb := 0 }
    head := fun q => if q = QueueId.run then some 0 else none
    currentFiber := some 0
    forkedFiber := none
    idle := some 9
    emptyContext := none
    ticks := 0
    fiber_flags := 0
    mem := fun _ => 0
    freed := [] }

/-- Witness for C5 at a concrete state: a fresh off-queue fiber `7`
enqueued on the run queue in front of fiber `3` and dequeued again leaves
the state unchanged. -/
def c5State : State :=
  { fibers := fun i =>
      if i = 3 then
        { next := none, prev := none, queue := some QueueId.run, context := 0,
          flags := 0, stack_bottom := 0, stack_top := 1024, tcb := 0 }
      else
        { next := none, prev := none, queue := none, context := 0,
          flags := 0, stack_bottom := 0, stack_top := 1024, tcb := 0 }
    head := fun q => if q = QueueId.run then some 3 else none
    currentFiber := some 3
    forkedFiber := none
    idle := none
    emptyContext := none
    ticks := 0
    fiber_flags := 0
    mem := fun _ => 0
    freed := [] }

/-- Witness for C6: with an empty pool and a failing heap both overloads
return null and leave the state unchanged; with a working heap both
overloads return fiber `5` enqueued on the run queue. -/
def c6State : State :=
  { fibers := fun _ =>
      { next := none, prev := none, queue := none, context := 0,
        flags := 0, stack_bottom := 0, stack_top := 1024, tcb := 0 }
    head := fun _ => none
    currentFiber := none
    forkedFiber := none
    idle := none
    emptyContext := some 7
    ticks := 0
    fiber_flags := 0
    mem := fun _ => 0
    freed := [] }

/-- Witness for C7 at a concrete state: a fiber with a 4-byte buffer and
a live stack depth of 9; the buffer grows to `4 * 2 ^ 2 = 16`. -/
def c7State : State :=
  { fibers := fun _ =>
      { next := none, prev := none, queue := none, context := 0,
        flags := 0, stack_bottom := 0, stack_top := 4, tcb := 0 }
    head := fun _ => none
    currentFiber := none
    forkedFiber := none
    idle := none
    emptyContext := none
    ticks := 0
    fiber_flags := 0
    mem := fun _ => 0
    freed := [] }

/-- A scenario state for the C8 witness: fiber `0` is current, alone on
the run queue, with all flags clear; fiber `9` is the idle fiber; the
pool and sleep queues are empty. -/
def c8State : State :=
  { fibers := fun i =>
      if i = 0 then
        { next := none, prev := none, queue := some QueueId.run, context := 0,
          flags := 0, stack_bottom := 0, stack_top := 1024, tcb := 0 }
      else
        { next := none, prev := none, queue := none, context := 0,
          flags := 0, stack_bottom := 0, stack_top := 1024, tcb := 0 }
    head := fun q => if q = QueueId.run then some 0 else none
    currentFiber := some 0
    forkedFiber := none
    idle := some 9
    emptyContext := none
    ticks := 0
    fiber_flags := 0
    mem := fun _ => 0
    freed := [] }

/-- Witness for C9: a concrete state whose run queue holds only the
current fiber `0`; `schedule` returns it unchanged. -/
def c9State : State :=
  { fibers := fun _ =>
      { next := none, prev := none, queue := some QueueId.run, context := 0,
        flags := 0, stack_bottom := 0, stack_top := 1024, tcb := 0 }
    head := fun q => if q = QueueId.run then some 0 else none
    currentFiber := some 0
    forkedFiber := none
    idle := some 9
    emptyContext := none
    ticks := 0
    fiber_flags := 0
    mem := fun _ => 0
    freed := [] }

/-- Witness for C10: a concrete state where the current fiber `0` has
CHILD set, the idle fiber is `9`; after release the record sits in the
pool with CHILD still set, and `getFiberContext` re-issues it with zeroed
flags. -/
def c10State : State :=
  { fibers := fun i =>
      if i = 0 then
        { next := none, prev := none, queue := some QueueId.run, context := 0,
          flags := 4, stack_bottom := 0, stack_top := 1024, tcb := 0 }
      else
        { next := none, prev := none, queue := none, context := 0,
          flags := 0, stack_bottom := 0, stack_top := 1024, tcb := 0 }
    head := fun q => if q = QueueId.run then some 0 else none
    currentFiber := some 0
    forkedFiber := none
    idle := some 9
    emptyContext := none
    ticks := 0
    fiber_flags := 0
    mem := fun _ => 0
    freed := [] }

/-! ### Projection toolkit -/

@[simp]
theorem updFiber_fibers (s : State) (i : FiberId) (f : Fiber) (j : FiberId) :
    (updFiber s i f).fibers j = if j = i then f else s.fibers j := rfl

@[simp]
theorem updFiber_head (s : State) (i : FiberId) (f : Fiber) :
    (updFiber s i f).head = s.head := rfl

@[simp]
theorem updFiber_currentFiber (s : State) (i : FiberId) (f : Fiber) :
    (updFiber s i f).currentFiber = s.currentFiber := rfl

@[simp]
theorem updFiber_forkedFiber (s : State) (i : FiberId) (f : Fiber) :
    (updFiber s i f).forkedFiber = s.forkedFiber := rfl

@[simp]
theorem updFiber_idle (s : State) (i : FiberId) (f : Fiber) :
    (updFiber s i f).idle = s.idle := rfl

@[simp]
theorem updFiber_emptyContext (s : State) (i : FiberId) (f : Fiber) :
    (updFiber s i f).emptyContext = s.emptyContext := rfl

@[simp]
theorem updFiber_ticks (s : State) (i : FiberId) (f : Fiber) :
    (updFiber s i f).ticks = s.ticks := rfl

@[simp]
theorem updFiber_fiber_flags (s : State) (i : FiberId) (f : Fiber) :
    (updFiber s i f).fiber_flags = s.fiber_flags := rfl

@[simp]
theorem updFiber_mem (s : State) (i : FiberId) (f : Fiber) :
    (updFiber s i f).mem = s.mem := rfl

@[simp]
theorem updFiber_freed (s : State) (i : FiberId) (f : Fiber) :
    (updFiber s i f).freed = s.freed := rfl

@[simp]
theorem setHead_head (s : State) (q : QueueId) (v : Option FiberId) (r : QueueId) :
    (setHead s q v).head r = if r = q then v else s.head r := rfl

@[simp]
theorem setHead_fibers (s : State) (q : QueueId) (v : Option FiberId) :
    (setHead s q v).fibers = s.fibers := rfl

@[simp]
theorem setHead_currentFiber (s : State) (q : QueueId) (v : Option FiberId) :
    (setHead s q v).currentFiber = s.currentFiber := rfl

@[simp]
theorem setHead_forkedFiber (s : State) (q : QueueId) (v : Option FiberId) :
    (setHead s q v).forkedFiber = s.forkedFiber := rfl

@[simp]
theorem setHead_idle (s : State) (q : QueueId) (v : Option FiberId) :
    (setHead s q v).idle = s.idle := rfl

@[simp]
theorem setHead_emptyContext (s : State) (q : QueueId) (v : Option FiberId) :
    (setHead s q v).emptyContext = s.emptyContext := rfl

@[simp]
theorem setHead_ticks (s : State) (q : QueueId) (v : Option FiberId) :
    (setHead s q v).ticks = s.ticks := rfl

@[simp]
theorem setHead_fiber_flags (s : State) (q : QueueId) (v : Option FiberId) :
    (setHead s q v).fiber_flags = s.fiber_flags := rfl

@[simp]
theorem setHead_mem (s : State) (q : QueueId) (v : Option FiberId) :
    (setHead s q v).mem = s.mem := rfl

@[simp]
theorem setHead_freed (s : State) (q : QueueId) (v : Option FiberId) :
    (setHead s q v).freed = s.freed := rfl

theorem updFiber_eta (s : State) (i : FiberId) : updFiber s i (s.fibers i) = s := by
  unfold updFiber
  congr 1
  funext j
  by_cases h : j = i
  · subst h; simp
  · simp [h]

theorem setHead_eta (s : State) (q : QueueId) : setHead s q (s.head q) = s := by
  unfold setHead
  congr 1
  funext r
  by_cases h : r = q
  · subst h; simp
  · simp [h]

/-! ### C5: queue round-trip and off-queue dequeue -/

/-- Claim C5: for an off-queue fiber `f`, `queue_fiber f Q` followed by
`dequeue_fiber f` restores the entire scheduler state (in particular all
queues are structurally identical to before), and `dequeue_fiber` on a
fiber whose queue pointer is null is a no-op that changes no queue and no
field of any fiber. -/
theorem queue_dequeue_roundtrip (s : State) (f : FiberId) (Q : QueueId)
    (h1 : (s.fibers f).queue = none) (h2 : (s.fibers f).prev = none)
    (h3 : (s.fibers f).next = none)
    (h4 : ∀ g, s.head Q = some g → g ≠ f ∧ (s.fibers g).prev = none) :
    dequeue_fiber f (queue_fiber f Q s) = s ∧
    (∀ s2 : State, (s2.fibers f).queue = none → dequeue_fiber f s2 = s2) := by
  constructor
  · cases hQ : s.head Q with
    | none =>
      have e1 : queue_fiber f Q s =
          setHead (updFiber s f
            { s.fibers f with queue := some Q, next := none, prev := none })
            Q (some f) := by
        simp only [queue_fiber, updFiber_head, hQ]
      rw [e1]
      have e2 : dequeue_fiber f (setHead (updFiber s f
          { s.fibers f with queue := some Q, next := none, prev := none })
          Q (some f)) =
          updFiber (setHead (setHead (updFiber s f
            { s.fibers f with queue := some Q, next := none, prev := none })
            Q (some f)) Q none) f
            { s.fibers f with queue := none, next := none, prev := none } := by
        simp only [dequeue_fiber, setHead_fibers, updFiber_fibers, eq_self_iff_true, if_true]
      rw [e2]
      refine State.ext ?_ ?_ rfl rfl rfl rfl rfl rfl rfl rfl
      · funext j
        by_cases hj : j = f
        · subst hj
          simp only [updFiber_fibers, eq_self_iff_true, if_true]
          exact Fiber.ext h3.symm h2.symm h1.symm rfl rfl rfl rfl rfl
        · simp only [updFiber_fibers, setHead_fibers, if_neg hj]
      · funext r
        by_cases hr : r = Q
        · subst hr
          simp only [updFiber_head, setHead_head, eq_self_iff_true, if_true, hQ]
        · simp only [updFiber_head, setHead_head, if_neg hr]
    | some g =>
      obtain ⟨hgf, hgprev⟩ := h4 g hQ
      have hfg2 : ¬ (f = g) := fun h => hgf h.symm
      have e1 : queue_fiber f Q s =
          setHead (updFiber (updFiber s f
            { s.fibers f with queue := some Q, next := some g, prev := none })
            g { s.fibers g with prev := some f })
            Q (some f) := by
        simp only [queue_fiber, updFiber_head, hQ, updFiber_fibers, if_neg hgf]
      rw [e1]
      have e2 : dequeue_fiber f (setHead (updFiber (updFiber s f
          { s.fibers f with queue := some Q, next := some g, prev := none })
          g { s.fibers g with prev := some f })
          Q (some f)) =
          updFiber (updFiber (setHead (setHead (updFiber (updFiber s f
            { s.fibers f with queue := some Q, next := some g, prev := none })
            g { s.fibers g with prev := some f })
            Q (some f)) Q (some g)) g { s.fibers g with prev := none }) f
            { s.fibers f with queue := none, next := none, prev := none } := by
        simp only [dequeue_fiber, setHead_fibers, updFiber_fibers, eq_self_iff_true, if_true,
          if_neg hgf, if_neg hfg2]
      rw [e2]
      refine State.ext ?_ ?_ rfl rfl rfl rfl rfl rfl rfl rfl
      · funext j
        by_cases hj : j = f
        · subst hj
          simp only [updFiber_fibers, eq_self_iff_true, if_true, if_neg hfg2]
          exact Fiber.ext h3.symm h2.symm h1.symm rfl rfl rfl rfl rfl
        · by_cases hjg : j = g
          · subst hjg
            simp only [updFiber_fibers, setHead_fibers, if_neg hj, eq_self_iff_true, if_true,
              if_neg hgf]
            exact Fiber.ext rfl hgprev.symm rfl rfl rfl rfl rfl rfl
          · simp only [updFiber_fibers, setHead_fibers, if_neg hj, if_neg hjg]
      · funext r
        by_cases hr : r = Q
        · subst hr
          simp only [updFiber_head, setHead_head, eq_self_iff_true, if_true, hQ]
        · simp only [updFiber_head, setHead_head, if_neg hr]
  · intro s2 h
    simp [dequeue_fiber, h]


theorem queue_dequeue_roundtrip_witness :
    (c5State.fibers 7).queue = none ∧
    dequeue_fiber 7 (queue_fiber 7 QueueId.run c5State) = c5State :=
  ⟨rfl,
    (queue_dequeue_roundtrip c5State 7 QueueId.run rfl rfl rfl
      (fun g hg => by
        refine ⟨?_, ?_⟩
        · simp only [c5State] at hg
          simp only [eq_self_iff_true, if_true] at hg
          cases hg
          decide
        · simp only [c5State] at hg ⊢
          simp only [eq_self_iff_true, if_true] at hg
          cases hg
          rfl)).1⟩

/-! ### verify_stack_size frame facts -/

theorem verify_stack_size_some_frame (hw : HW) (s : State) (f : FiberId)
    (s2 : State) (h : verify_stack_size hw s f = some s2) :
    s2.head = s.head ∧ s2.currentFiber = s.currentFiber ∧
    s2.forkedFiber = s.forkedFiber ∧ s2.idle = s.idle ∧
    s2.emptyContext = s.emptyContext ∧ s2.ticks = s.ticks ∧
    s2.fiber_flags = s.fiber_flags ∧ s2.mem = s.mem ∧
    ∀ j, (s2.fibers j).next = (s.fibers j).next ∧
      (s2.fibers j).prev = (s.fibers j).prev ∧
      (s2.fibers j).queue = (s.fibers j).queue ∧
      (s2.fibers j).context = (s.fibers j).context ∧
      (s2.fibers j).flags = (s.fibers j).flags ∧
      (s2.fibers j).tcb = (s.fibers j).tcb := by
  simp only [verify_stack_size] at h
  split at h
  · split at h
    · cases h
    · cases h
      refine ⟨rfl, rfl, rfl, rfl, rfl, rfl, rfl, rfl, ?_⟩
      intro j
      by_cases hj : j = f
      · subst hj
        simp [updFiber_fibers]
      · simp [updFiber_fibers, hj]
  · cases h
    exact ⟨rfl, rfl, rfl, rfl, rfl, rfl, rfl, rfl, fun j => ⟨rfl, rfl, rfl, rfl, rfl, rfl⟩⟩

theorem verify_stack_size_noop (hw : HW) (s : State) (f : FiberId)
    (h : hw.stackDepth ≤ (s.fibers f).stack_top - (s.fibers f).stack_bottom) :
    verify_stack_size hw s f = some s := by
  simp only [verify_stack_size, if_neg (Nat.not_lt.mpr h)]

/-! ### C4: runnable selection -/

/-- Claim C4: outside a fork-on-block episode the runnable selection of
`schedule()` is exactly the rule stated by the specification: idle when
the run queue is empty or the data-read flag is set; else the current
fiber's successor (or the head when the successor is null) when the
current fiber is on the run queue; else the run-queue head.  The second
conjunct ties the selection to `schedule()` itself: whatever state
`schedule` produces has the selected fiber as `currentFiber`. -/
theorem schedule_selects_per_spec (s : State) (c : FiberId) (hw : HW)
    (h1 : s.currentFiber = some c)
    (h2 : (s.fibers c).flags &&& MICROBIT_FIBER_FLAG_FOB = 0) :
    runnable_select s c = runnable_select_spec s c ∧
    ∀ s2, schedule hw s = some s2 → s2.currentFiber = runnable_select s c := by
  constructor
  · unfold runnable_select runnable_select_spec
    by_cases hA : s.head QueueId.run = none ∨
        s.fiber_flags &&& MICROBIT_FLAG_DATA_READ ≠ 0
    · rw [if_pos hA, if_pos hA]
    · rw [if_neg hA, if_neg hA]
      by_cases hB : (s.fibers c).queue = some QueueId.run
      · rw [if_pos hB, if_pos hB]
        cases hn : (s.fibers c).next with
        | none => rw [if_pos rfl]
        | some n => rw [if_neg (by simp)]
      · rw [if_neg hB, if_neg hB]
  · intro s2 hs2
    unfold schedule at hs2
    rw [h1] at hs2
    dsimp only at hs2
    rw [if_neg (fun hne => hne h2)] at hs2
    by_cases hc : runnable_select s c = some c
    · rw [if_pos hc] at hs2
      cases hs2
      rfl
    · rw [if_neg hc] at hs2
      cases hv : verify_stack_size hw { s with currentFiber := runnable_select s c } c with
      | none => rw [hv] at hs2; cases hs2
      | some s6 =>
        rw [hv] at hs2
        have hframe := verify_stack_size_some_frame _ _ _ _ hv
        cases hch : runnable_select s c with
        | none => rw [hch] at hs2; cases hs2
        | some nw =>
          rw [hch] at hs2
          cases hs2
          simp only [swap_context_eff, updFiber_currentFiber]
          rw [hframe.2.1]
          exact hch


theorem schedule_selects_per_spec_witness :
    (c4State.fibers 0).flags &&& MICROBIT_FIBER_FLAG_FOB = 0 ∧
    runnable_select c4State 0 = runnable_select_spec c4State 0 :=
  ⟨by decide, (schedule_selects_per_spec c4State 0 ⟨0, 0, 0⟩ rfl (by decide)).1⟩

/-! ### C9: schedule with a single runnable fiber is the identity -/

/-- Claim C9: when the current fiber is the only fiber on the run queue,
its FOB flag is clear and the data-read flag is clear, `schedule()` picks
the current fiber itself and performs no context switch and no stack
resizing: the entire state (current fiber, all queues, saved contexts) is
unchanged. -/
theorem schedule_single_runnable_noop (hw : HW) (s : State) (c : FiberId)
    (hc : s.currentFiber = some c)
    (hfob : (s.fibers c).flags &&& MICROBIT_FIBER_FLAG_FOB = 0)
    (hdr : s.fiber_flags &&& MICROBIT_FLAG_DATA_READ = 0)
    (hhead : s.head QueueId.run = some c)
    (hq : (s.fibers c).queue = some QueueId.run)
    (hnext : (s.fibers c).next = none) :
    schedule hw s = some s := by
  have hsel : runnable_select s c = some c := by
    unfold runnable_select
    rw [if_neg, if_pos hq, hnext, hhead]
    intro hor
    rcases hor with hempty | hflag
    · rw [hhead] at hempty; cases hempty
    · exact hflag hdr
  unfold schedule
  rw [hc]
  dsimp only
  rw [if_neg (fun hne => hne hfob)]
  rw [hsel, if_pos rfl, ← hc]


theorem schedule_single_runnable_noop_witness :
    c9State.head QueueId.run = some 0 ∧
    schedule ⟨0, 0, 0⟩ c9State = some c9State :=
  ⟨rfl, schedule_single_runnable_noop ⟨0, 0, 0⟩ c9State 0 rfl (by decide) (by decide)
    rfl rfl rfl⟩

/-! ### Flag-bit helper lemmas -/

theorem flag_lor_land_self (x m : Nat) : (x ||| m) &&& m = m := by
  apply Nat.eq_of_testBit_eq
  intro i
  simp only [Nat.testBit_land, Nat.testBit_lor]
  cases h : Nat.testBit m i <;> simp [h]

theorem flag_lor_land_of_disjoint (x m n : Nat) (hmn : m &&& n = 0) :
    (x ||| m) &&& n = x &&& n := by
  apply Nat.eq_of_testBit_eq
  intro i
  have hd : (m.testBit i && n.testBit i) = false := by
    rw [← Nat.testBit_land, hmn]
    simp
  simp only [Nat.testBit_land, Nat.testBit_lor]
  cases hm : m.testBit i <;> cases hn : n.testBit i <;> simp_all

/-! ### C7: verify_stack_size growth -/

theorem growBuffer_eq (k : Nat) : ∀ (b d fuel : Nat), 0 < b → d ≤ 2 ^ 31 →
    d ≤ b * 2 ^ k → (∀ j, j < k → b * 2 ^ j < d) → k < fuel →
    growBuffer fuel b d = some (b * 2 ^ k) := by
  induction k with
  | zero =>
    intro b d fuel hb hd hle _ hf
    cases fuel with
    | zero => omega
    | succ f =>
      have hbd : ¬ b < d := by
        rw [pow_zero, mul_one] at hle
        omega
      simp [growBuffer, hbd]
  | succ k ih =>
    intro b d fuel hb hd hle hmin hf
    cases fuel with
    | zero => omega
    | succ f =>
      have hbd : b < d := by
        have := hmin 0 (Nat.succ_pos k)
        rwa [pow_zero, mul_one] at this
      have hmono : b * 2 ^ k < d := hmin k (Nat.lt_succ_self k)
      have hpow : b * 2 ^ (k + 1) = b * 2 * 2 ^ k := by ring
      have hlt32 : b * 2 < 2 ^ 32 := by
        have h1 : b * 2 ^ (k + 1) < 2 ^ 32 := by
          have : b * 2 ^ (k + 1) = 2 * (b * 2 ^ k) := by ring
          rw [this]
          have : (2 : Nat) ^ 32 = 2 * 2 ^ 31 := by norm_num
          omega
        have h2 : b * 2 ≤ b * 2 ^ (k + 1) := by
          have : (2 : Nat) ≤ 2 ^ (k + 1) := by
            calc (2 : Nat) = 2 ^ 1 := by norm_num
            _ ≤ 2 ^ (k + 1) := Nat.pow_le_pow_right (by norm_num) (by omega)
          exact Nat.mul_le_mul_left b this
        omega
      have hmod : b * 2 % 2 ^ 32 = b * 2 := Nat.mod_eq_of_lt hlt32
      have hrec := ih (b * 2) d f (by omega) hd
        (by rw [← hpow]; exact hle)
        (fun j hj => by
          have := hmin (j + 1) (by omega)
          have hpj : b * 2 ^ (j + 1) = b * 2 * 2 ^ j := by ring
          rwa [hpj] at this)
        (by omega)
      simp only [growBuffer, if_pos hbd, hmod, hrec]
      rw [← hpow]

/-- Claim C7: `verify_stack_size(f)` leaves the fiber's stack fields
unchanged when the buffer (`stack_top - stack_bottom`) already holds the
live stack depth; when the buffer is smaller, the old allocation is freed
and the new buffer size is the old size multiplied by the smallest power
of two that makes it at least the stack depth (`k` is that exponent, as
the conditional hypothesis `hk` states). -/
theorem verify_stack_size_spec (hw : HW) (s : State) (f : FiberId) (k : Nat)
    (hB : 0 < (s.fibers f).stack_top - (s.fibers f).stack_bottom)
    (hd : hw.stackDepth ≤ 2 ^ 31)
    (hk : (s.fibers f).stack_top - (s.fibers f).stack_bottom < hw.stackDepth →
      hw.stackDepth ≤ ((s.fibers f).stack_top - (s.fibers f).stack_bottom) * 2 ^ k ∧
      ∀ j, j < k → ((s.fibers f).stack_top - (s.fibers f).stack_bottom) * 2 ^ j < hw.stackDepth)
    (hfuel : k < hw.growFuel)
    (hnb : hw.newBase + ((s.fibers f).stack_top - (s.fibers f).stack_bottom) * 2 ^ k < 2 ^ 32) :
    (hw.stackDepth ≤ (s.fibers f).stack_top - (s.fibers f).stack_bottom →
      verify_stack_size hw s f = some s) ∧
    ((s.fibers f).stack_top - (s.fibers f).stack_bottom < hw.stackDepth →
      ∃ s2, verify_stack_size hw s f = some s2 ∧
        (s2.fibers f).stack_top - (s2.fibers f).stack_bottom =
          ((s.fibers f).stack_top - (s.fibers f).stack_bottom) * 2 ^ k ∧
        (s2.fibers f).stack_bottom = hw.newBase ∧
        s2.freed = (s.fibers f).stack_bottom :: s.freed) := by
  constructor
  · intro hge
    exact verify_stack_size_noop hw s f hge
  · intro hlt
    obtain ⟨hk1, hk2⟩ := hk hlt
    have hg := growBuffer_eq k ((s.fibers f).stack_top - (s.fibers f).stack_bottom)
      hw.stackDepth hw.growFuel hB hd hk1 hk2 hfuel
    refine ⟨updFiber { s with freed := (s.fibers f).stack_bottom :: s.freed } f
      { s.fibers f with
        stack_bottom := hw.newBase
        stack_top := (hw.newBase +
          ((s.fibers f).stack_top - (s.fibers f).stack_bottom) * 2 ^ k) % 2 ^ 32 },
      ?_, ?_, ?_, ?_⟩
    · simp only [verify_stack_size, if_pos hlt, hg]
    · simp only [updFiber_fibers, eq_self_iff_true, if_true]
      rw [Nat.mod_eq_of_lt hnb, Nat.add_sub_cancel_left]
    · simp only [updFiber_fibers, eq_self_iff_true, if_true]
    · simp only [updFiber_freed]


theorem verify_stack_size_spec_witness :
    (c7State.fibers 0).stack_top - (c7State.fibers 0).stack_bottom < 9 ∧
    ∃ s2, verify_stack_size ⟨9, 100, 3⟩ c7State 0 = some s2 ∧
      (s2.fibers 0).stack_top - (s2.fibers 0).stack_bottom =
        ((c7State.fibers 0).stack_top - (c7State.fibers 0).stack_bottom) * 2 ^ 2 ∧
      (s2.fibers 0).stack_bottom = 100 ∧
      s2.freed = (c7State.fibers 0).stack_bottom :: c7State.freed :=
  ⟨by decide,
    (verify_stack_size_spec ⟨9, 100, 3⟩ c7State 0 2 (by decide) (by norm_num)
      (fun _ => ⟨by decide, by decide⟩) (by decide) (by decide)).2 (by decide)⟩

/-! ### queue_fiber / getFiberContext helper lemmas -/

theorem queue_fiber_head_self (f : FiberId) (q : QueueId) (s : State) :
    (queue_fiber f q s).head q = some f := by
  simp [queue_fiber]

theorem queue_fiber_queue_self (f : FiberId) (q : QueueId) (s : State) :
    ((queue_fiber f q s).fibers f).queue = some q := by
  simp only [queue_fiber, setHead_fibers, updFiber_head]
  cases hg : s.head q with
  | none => simp
  | some g =>
    by_cases hfg : f = g
    · subst hfg
      simp
    · simp [hfg]

theorem getFiberContext_fst (alloc : Alloc) (s : State)
    (h : s.head QueueId.pool ≠ none ∨ (alloc.heapOk = true ∧ alloc.stackOk = true)) :
    (getFiberContext alloc s).1 ≠ none := by
  cases hp : s.head QueueId.pool with
  | some f => simp [getFiberContext, hp]
  | none =>
    rcases h with h | ⟨h1, h2⟩
    · exact absurd hp h
    · simp [getFiberContext, hp, h1, h2]

/-! ### release_fiber evaluation helper (used for C10 and for the CHILD
self-recycle part of C8) -/

theorem release_fiber_pool_eval (hw : HW) (s : State) (c i : FiberId)
    (hc : s.currentFiber = some c)
    (hfob : (s.fibers c).flags &&& MICROBIT_FIBER_FLAG_FOB = 0)
    (hidle : s.idle = some i) (hic : i ≠ c)
    (hpool : s.head QueueId.pool = none)
    (hq : (s.fibers c).queue = some QueueId.run)
    (hprev : (s.fibers c).prev = none)
    (hnext : (s.fibers c).next = none)
    (hstack : hw.stackDepth ≤ (s.fibers c).stack_top - (s.fibers c).stack_bottom) :
    ∃ s2, release_fiber hw s = some s2 ∧
      (s2.fibers c).flags = (s.fibers c).flags ∧
      (s2.fibers c).queue = some QueueId.pool ∧
      s2.head QueueId.pool = some c ∧
      ∀ alloc, (getFiberContext alloc s2).1 = some c ∧
        ((getFiberContext alloc s2).2.fibers c).flags = 0 := by
  have e1 : dequeue_fiber c s =
      updFiber (setHead s QueueId.run none) c
        { s.fibers c with next := none, prev := none, queue := none } := by
    simp only [dequeue_fiber, hq, hprev, hnext, setHead_fibers]
  have e2 : queue_fiber c QueueId.pool (dequeue_fiber c s) =
      setHead (updFiber (updFiber (setHead s QueueId.run none) c
        { s.fibers c with next := none, prev := none, queue := none }) c
        { s.fibers c with queue := some QueueId.pool, next := none, prev := none })
        QueueId.pool (some c) := by
    rw [e1]
    simp only [queue_fiber, updFiber_head, setHead_head, updFiber_fibers,
      eq_self_iff_true, if_true]
    rw [if_neg (by decide : ¬ (QueueId.pool = QueueId.run)), hpool]
  rw [release_fiber, hc]
  dsimp only
  rw [e2]
  set sB := setHead (updFiber (updFiber (setHead s QueueId.run none) c
    { s.fibers c with next := none, prev := none, queue := none }) c
    { s.fibers c with queue := some QueueId.pool, next := none, prev := none })
    QueueId.pool (some c) with hsB
  have hBc : sB.fibers c =
      { s.fibers c with queue := some QueueId.pool, next := none, prev := none } := by
    rw [hsB]
    simp
  have hBrun : sB.head QueueId.run = none := by
    rw [hsB]
    simp
  have hBcur : sB.currentFiber = some c := by
    rw [hsB]; simp [hc]
  have hBidle : sB.idle = some i := by
    rw [hsB]; simp [hidle]
  rw [schedule, hBcur]
  dsimp only
  have hBflags : (sB.fibers c).flags = (s.fibers c).flags := by rw [hBc]
  rw [if_neg (fun hne => hne (by rw [hBflags]; exact hfob))]
  have hsel : runnable_select sB c = some i := by
    rw [runnable_select, if_pos (Or.inl hBrun), hBidle]
  rw [hsel]
  rw [if_neg (fun hh => hic (Option.some.inj hh))]
  have hv : verify_stack_size hw { sB with currentFiber := some i } c =
      some { sB with currentFiber := some i } := by
    apply verify_stack_size_noop
    show hw.stackDepth ≤ (sB.fibers c).stack_top - (sB.fibers c).stack_bottom
    rw [hBc]
    exact hstack
  rw [hv]
  refine ⟨_, rfl, ?_, ?_, ?_, ?_⟩
  · simp only [swap_context_eff, updFiber_fibers, eq_self_iff_true, if_true]
    rw [show ({ sB with currentFiber := some i } : State).fibers = sB.fibers from rfl, hBc]
  · simp only [swap_context_eff, updFiber_fibers, eq_self_iff_true, if_true]
    rw [show ({ sB with currentFiber := some i } : State).fibers = sB.fibers from rfl, hBc]
  · simp only [swap_context_eff, updFiber_head]
    rw [show ({ sB with currentFiber := some i } : State).head = sB.head from rfl, hsB]
    simp
  · intro alloc
    have hpoolhead : (swap_context_eff { sB with currentFiber := some i } c).head
        QueueId.pool = some c := by
      simp only [swap_context_eff, updFiber_head]
      rw [show ({ sB with currentFiber := some i } : State).head = sB.head from rfl, hsB]
      simp
    constructor
    · simp [getFiberContext, hpoolhead]
    · simp [getFiberContext, hpoolhead]

/-! ### C10: release_fiber does not touch the flags word -/

/-- Claim C10: `release_fiber` moves the current fiber from its queue to
the pool without modifying its flags word (so a record released while its
CHILD flag is set sits in the pool with CHILD still set), and the flags of
a pooled record are zeroed only when it is next allocated by
`getFiberContext`.  The scenario hypotheses describe the usual situation:
the releasing fiber is at the head of the run queue, FOB is clear, the
pool is empty, and the idle fiber exists so the trailing `schedule()` has
somewhere to go. -/
theorem release_fiber_keeps_flags (hw : HW) (s : State) (c i : FiberId)
    (hc : s.currentFiber = some c)
    (hfob : (s.fibers c).flags &&& MICROBIT_FIBER_FLAG_FOB = 0)
    (hidle : s.idle = some i) (hic : i ≠ c)
    (hpool : s.head QueueId.pool = none)
    (hq : (s.fibers c).queue = some QueueId.run)
    (hprev : (s.fibers c).prev = none)
    (hnext : (s.fibers c).next = none)
    (hstack : hw.stackDepth ≤ (s.fibers c).stack_top - (s.fibers c).stack_bottom) :
    ∃ s2, release_fiber hw s = some s2 ∧
      (s2.fibers c).flags = (s.fibers c).flags ∧
      (s2.fibers c).queue = some QueueId.pool ∧
      s2.head QueueId.pool = some c ∧
      ∀ alloc, (getFiberContext alloc s2).1 = some c ∧
        ((getFiberContext alloc s2).2.fibers c).flags = 0 :=
  release_fiber_pool_eval hw s c i hc hfob hidle hic hpool hq hprev hnext hstack


theorem release_fiber_keeps_flags_witness :
    (c10State.fibers 0).flags = 4 ∧
    ∃ s2, release_fiber ⟨0, 0, 0⟩ c10State = some s2 ∧
      (s2.fibers 0).flags = (c10State.fibers 0).flags ∧
      (s2.fibers 0).queue = some QueueId.pool ∧
      s2.head QueueId.pool = some 0 ∧
      ∀ alloc, (getFiberContext alloc s2).1 = some 0 ∧
        ((getFiberContext alloc s2).2.fibers 0).flags = 0 :=
  ⟨rfl,
    release_fiber_keeps_flags ⟨0, 0, 0⟩ c10State 0 9 rfl (by decide) rfl
      (by decide) rfl rfl rfl rfl (by decide)⟩

/-! ### C6: create_fiber null checks and enqueue -/

/-- Claim C6: both overloads of `create_fiber` return null (with the state
untouched, so nothing is enqueued) when the entry or completion function
is null, and when the pool is empty and the heap cannot provide the record
or its stack; otherwise they return a non-null fiber that has been
enqueued at the head of the run queue. -/
theorem create_fiber_spec (s : State) (alloc : Alloc) (e comp : Option Nat)
    (p : Nat) :
    ((e = none ∨ comp = none) →
      create_fiber e comp alloc s = (none, s) ∧
      create_fiber_param e p comp alloc s = (none, s)) ∧
    (s.head QueueId.pool = none → alloc.heapOk = false ∨ alloc.stackOk = false →
      create_fiber e comp alloc s = (none, s) ∧
      create_fiber_param e p comp alloc s = (none, s)) ∧
    (e ≠ none → comp ≠ none →
      (s.head QueueId.pool ≠ none ∨ (alloc.heapOk = true ∧ alloc.stackOk = true)) →
      (∃ nf s2, create_fiber e comp alloc s = (some nf, s2) ∧
        s2.head QueueId.run = some nf ∧
        (s2.fibers nf).queue = some QueueId.run) ∧
      (∃ nf s2, create_fiber_param e p comp alloc s = (some nf, s2) ∧
        s2.head QueueId.run = some nf ∧
        (s2.fibers nf).queue = some QueueId.run)) := by
  refine ⟨?_, ?_, ?_⟩
  · intro h
    constructor
    · rw [create_fiber, if_pos h]
    · rw [create_fiber_param, if_pos h]
  · intro hpool halloc
    by_cases h : e = none ∨ comp = none
    · exact ⟨by rw [create_fiber, if_pos h], by rw [create_fiber_param, if_pos h]⟩
    · have hg : getFiberContext alloc s = (none, s) := by
        rcases halloc with h1 | h2
        · simp [getFiberContext, hpool, h1]
        · cases hh : alloc.heapOk <;> simp [getFiberContext, hpool, hh, h2]
      exact ⟨by rw [create_fiber, if_neg h, hg], by rw [create_fiber_param, if_neg h, hg]⟩
  · intro he hcomp hsrc
    have hne : ¬ (e = none ∨ comp = none) := fun h => h.elim he hcomp
    have hfst := getFiberContext_fst alloc s hsrc
    constructor
    · rw [create_fiber, if_neg hne]
      rcases hgc : getFiberContext alloc s with ⟨r1, s1⟩
      cases r1 with
      | none =>
        exact absurd (show (getFiberContext alloc s).1 = none by rw [hgc]) hfst
      | some nf =>
        exact ⟨nf, _, rfl, queue_fiber_head_self nf QueueId.run _,
          queue_fiber_queue_self nf QueueId.run _⟩
    · rw [create_fiber_param, if_neg hne]
      rcases hgc : getFiberContext alloc s with ⟨r1, s1⟩
      cases r1 with
      | none =>
        exact absurd (show (getFiberContext alloc s).1 = none by rw [hgc]) hfst
      | some nf =>
        exact ⟨nf, _, rfl, queue_fiber_head_self nf QueueId.run _,
          queue_fiber_queue_self nf QueueId.run _⟩


theorem create_fiber_spec_witness :
    (create_fiber (some 11) (some 12) ⟨false, true, 5, 2048⟩ c6State = (none, c6State) ∧
      create_fiber_param (some 11) 3 (some 12) ⟨false, true, 5, 2048⟩ c6State =
        (none, c6State)) ∧
    (∃ nf s2, create_fiber (some 11) (some 12) ⟨true, true, 5, 2048⟩ c6State =
        (some nf, s2) ∧
      s2.head QueueId.run = some nf ∧
      (s2.fibers nf).queue = some QueueId.run) :=
  ⟨(create_fiber_spec c6State ⟨false, true, 5, 2048⟩ (some 11) (some 12) 3).2.1
      rfl (Or.inl rfl),
    ((create_fiber_spec c6State ⟨true, true, 5, 2048⟩ (some 11) (some 12) 3).2.2
      (by decide) (by decide) (Or.inr ⟨rfl, rfl⟩)).1⟩

/-! ### C1: event filter round-trip (divergence of the code) -/


/-- Claim C1 (divergence): fiber `0` blocks on
`fiber_wait_for_event(id = 5, value = 7)` and the event
`{source = 5, value = 3}` is delivered.  Per the claimed match rule the
fiber must stay on the wait queue (its value filter `7` is neither
`VALUE_ANY` nor `3`), but the code moves it to the run queue: the
dispatcher's extraction `(context & 0xFF00) >> 16` recovers `0`
(`VALUE_ANY`) instead of the stored value `7`, and `context & 0xFF`
truncates ids to 8 bits (`300` is recovered as `44`). -/
theorem c1_event_value_extraction_bug :
    ((fiber_wait_for_event 5 7 ⟨false, false, 0, 0⟩ ⟨0, 0, 1⟩ c1State).map
      (fun s1 => ((scheduler_event 5 3 4 s1).fibers 0).queue) =
        some (some QueueId.run)) ∧
    (((7 <<< 16 ||| 5) % 2 ^ 32) &&& 0xFF00) >>> 16 = 0 ∧ (7 : Nat) ≠ MICROBIT_EVT_ANY ∧
    ((0 <<< 16 ||| 300) % 2 ^ 32) &&& 0xFF = 44 := by decide

/-! ### C2: fork-on-block allocation failure reaches a null dereference -/


/-- Claim C2 (divergence): when the handler blocks under fork-on-block and
`getFiberContext()` returns null (pool empty, heap exhausted),
`fiber_sleep` does keep running in the current fiber's context as the
claim says - but the `schedule()` it then enters still sees FOB set,
takes the fork branch, and calls `verify_stack_size(forkedFiber)` with
`forkedFiber == NULL`: a null-pointer dereference (`none` in the model),
not error-free scheduling. -/
theorem c2_fob_alloc_failure_crashes :
    fiber_sleep 10 ⟨false, false, 0, 0⟩ ⟨0, 0, 1⟩ c2State = none ∧
    (c2State.fibers 0).flags &&& MICROBIT_FIBER_FLAG_FOB ≠ 0 ∧
    c2State.head QueueId.pool = none :=
  ⟨rfl, by decide, rfl⟩

/-! ### C8 helper lemmas: the three phases of a fork-on-block episode -/

theorem fob_snapshot_nonblocking (t : Nat) (alloc : Alloc) (hw : HW)
    (c : FiberId) (fuel : Nat) (s0 : State)
    (hpar : (s0.fibers c).flags &&& MICROBIT_FIBER_FLAG_PARENT = 0)
    (hch : (s0.fibers c).flags &&& MICROBIT_FIBER_FLAG_CHILD = 0) :
    ∃ s2, fob_snapshot_entry false t alloc hw c (fuel + 1) s0 = some s2 ∧
      (s2.fibers c).flags =
        ((s0.fibers c).flags ||| MICROBIT_FIBER_FLAG_FOB) &&&
          (255 ^^^ MICROBIT_FIBER_FLAG_FOB) := by
  set s1 := updFiber s0 c
    { s0.fibers c with flags := (s0.fibers c).flags ||| MICROBIT_FIBER_FLAG_FOB } with hs1def
  set s2 := updFiber s1 c
    { s1.fibers c with
      flags := (s1.fibers c).flags &&& (255 ^^^ MICROBIT_FIBER_FLAG_FOB) } with hs2def
  have h1 : (s1.fibers c).flags = (s0.fibers c).flags ||| MICROBIT_FIBER_FLAG_FOB := by
    rw [hs1def]
    simp
  have h2 : (s2.fibers c).flags =
      ((s0.fibers c).flags ||| MICROBIT_FIBER_FLAG_FOB) &&&
        (255 ^^^ MICROBIT_FIBER_FLAG_FOB) := by
    rw [hs2def]
    simp [h1]
  have hCH : (s2.fibers c).flags &&& MICROBIT_FIBER_FLAG_CHILD = 0 := by
    rw [h2, show ((255 ^^^ MICROBIT_FIBER_FLAG_FOB : Nat)) = 254 from by decide,
      Nat.land_assoc,
      show ((254 &&& MICROBIT_FIBER_FLAG_CHILD : Nat)) = MICROBIT_FIBER_FLAG_CHILD
        from by decide,
      flag_lor_land_of_disjoint _ _ _
        (by decide : (MICROBIT_FIBER_FLAG_FOB &&& MICROBIT_FIBER_FLAG_CHILD : Nat) = 0)]
    exact hch
  refine ⟨s2, ?_, h2⟩
  simp only [fob_snapshot_entry, Bool.false_eq_true, if_false]
  rw [if_neg (fun hne => hne hpar)]
  rw [if_neg (fun hne => hne hCH)]

theorem dequeue_fiber_offqueue (f : FiberId) (s : State)
    (h : (s.fibers f).queue = none) : dequeue_fiber f s = s := by
  simp [dequeue_fiber, h]

theorem fiber_sleep_fob_forks (t : Nat) (alloc : Alloc) (hw : HW) (sA : State)
    (c : FiberId)
    (hc : sA.currentFiber = some c)
    (hfobset : (sA.fibers c).flags &&& MICROBIT_FIBER_FLAG_FOB ≠ 0)
    (hpool : sA.head QueueId.pool = none)
    (hsleep : sA.head QueueId.sleep = none)
    (hheap : alloc.heapOk = true) (hstk : alloc.stackOk = true)
    (hfr : alloc.freshId ≠ c)
    (hwd : hw.stackDepth ≤ FIBER_STACK_SIZE) :
    ∃ sD, fiber_sleep t alloc hw sA = some sD ∧
      (sD.fibers c).flags = (sA.fibers c).flags ||| MICROBIT_FIBER_FLAG_PARENT ∧
      (sD.fibers alloc.freshId).flags = MICROBIT_FIBER_FLAG_CHILD ∧
      (sD.fibers alloc.freshId).queue = some QueueId.sleep ∧
      sD.currentFiber = sA.currentFiber := by
  have hr : getFiberContext alloc sA =
      (some alloc.freshId, updFiber sA alloc.freshId
        { next := none, prev := none, queue := none, context := 0, flags := 0,
          stack_bottom := alloc.stackBase,
          stack_top := alloc.stackBase + FIBER_STACK_SIZE, tcb := 0 }) := by
    simp [getFiberContext, hpool, hheap, hstk]
  have hcf : c ≠ alloc.freshId := fun h => hfr h.symm
  set nfR : Fiber :=
    { next := none
      prev := none
      queue := none
      context := 0
      flags := 0
      stack_bottom := alloc.stackBase
      stack_top := alloc.stackBase + FIBER_STACK_SIZE
      tcb := 0 } with hnfR
  have hr2 : getFiberContext alloc sA = (some alloc.freshId, updFiber sA alloc.freshId nfR) := hr
  set sH : State :=
    { updFiber sA alloc.freshId nfR with forkedFiber := some alloc.freshId } with hsH
  set sI : State := updFiber sH alloc.freshId
    { sH.fibers alloc.freshId with context := (sH.ticks + t) % 2 ^ 32 } with hsI
  have e1 : fiber_sleep t alloc hw sA =
      schedule hw (queue_fiber alloc.freshId QueueId.sleep
        (dequeue_fiber alloc.freshId sI)) := by
    rw [fiber_sleep, hc]
    dsimp only
    rw [if_pos hfobset, hr2]
  have hIfq : (sI.fibers alloc.freshId).queue = none := by
    rw [hsI]
    simp [hsH, hnfR]
  have hdeq : dequeue_fiber alloc.freshId sI = sI :=
    dequeue_fiber_offqueue _ _ hIfq
  have hIsleep : sI.head QueueId.sleep = none := by
    rw [hsI, hsH]
    simp [hsleep]
  set sJ : State := setHead (updFiber sI alloc.freshId
    { sI.fibers alloc.freshId with
      queue := some QueueId.sleep
      next := none
      prev := none }) QueueId.sleep (some alloc.freshId) with hsJ
  have e2 : queue_fiber alloc.freshId QueueId.sleep sI = sJ := by
    rw [hsJ]
    simp only [queue_fiber, updFiber_head, hIsleep]
  have hJcur : sJ.currentFiber = some c := by
    rw [hsJ, hsI, hsH]
    simp [hc]
  have hJc : sJ.fibers c = sA.fibers c := by
    rw [hsJ, hsI, hsH]
    simp [hcf]
  have hJforked : sJ.forkedFiber = some alloc.freshId := by
    rw [hsJ, hsI, hsH]
    simp
  have hJfid0 : (sJ.fibers alloc.freshId).flags = 0 := by
    rw [hsJ, hsI, hsH]
    simp [hnfR]
  have hJfidq : (sJ.fibers alloc.freshId).queue = some QueueId.sleep := by
    rw [hsJ]
    simp
  have hJfidtop : (sJ.fibers alloc.freshId).stack_top = alloc.stackBase + FIBER_STACK_SIZE := by
    rw [hsJ, hsI, hsH]
    simp [hnfR]
  have hJfidbot : (sJ.fibers alloc.freshId).stack_bottom = alloc.stackBase := by
    rw [hsJ, hsI, hsH]
    simp [hnfR]
  have hv : verify_stack_size hw sJ alloc.freshId = some sJ := by
    apply verify_stack_size_noop
    rw [hJfidtop, hJfidbot, Nat.add_sub_cancel_left]
    exact hwd
  rw [e1, hdeq, e2]
  rw [schedule, hJcur]
  dsimp only
  rw [if_pos (show (sJ.fibers c).flags &&& MICROBIT_FIBER_FLAG_FOB ≠ 0 by
    rw [hJc]; exact hfobset)]
  rw [hJforked]
  dsimp only
  rw [hv]
  dsimp only
  refine ⟨_, rfl, ?_, ?_, ?_, ?_⟩
  · simp only [save_context_eff, updFiber_fibers, if_neg hcf, eq_self_iff_true, if_true]
    rw [hJc]
  · simp only [save_context_eff, updFiber_fibers, eq_self_iff_true, if_true,
      if_neg hfr]
    rw [hJfid0]
    simp [MICROBIT_FIBER_FLAG_CHILD]
  · simp only [save_context_eff, updFiber_fibers, eq_self_iff_true, if_true,
      if_neg hfr]
    exact hJfidq
  · simp only [save_context_eff, updFiber_currentFiber, setHead_currentFiber]
    rw [hJcur, hc]

theorem fob_blocking_eval (t : Nat) (alloc : Alloc) (hw : HW) (s : State)
    (c : FiberId) (e : Nat)
    (hc : s.currentFiber = some c)
    (hfob : (s.fibers c).flags &&& MICROBIT_FIBER_FLAG_FOB = 0)
    (hpar : (s.fibers c).flags &&& MICROBIT_FIBER_FLAG_PARENT = 0)
    (hpool : s.head QueueId.pool = none)
    (hsleep : s.head QueueId.sleep = none)
    (hheap : alloc.heapOk = true) (hstk : alloc.stackOk = true)
    (hfr : alloc.freshId ≠ c)
    (hwd : hw.stackDepth ≤ FIBER_STACK_SIZE) :
    ∃ s2, fork_on_block_model (some e) true t alloc hw 2 s = some s2 ∧
      (s2.fibers c).flags &&& MICROBIT_FIBER_FLAG_FOB = 0 ∧
      (s2.fibers c).flags &&& MICROBIT_FIBER_FLAG_PARENT = 0 ∧
      (s2.fibers alloc.freshId).flags &&& MICROBIT_FIBER_FLAG_CHILD ≠ 0 ∧
      (s2.fibers alloc.freshId).queue = some QueueId.sleep := by
  set s0 := save_register_context_eff s c with hs0
  have hF : (s0.fibers c).flags = (s.fibers c).flags := by
    rw [hs0]
    simp [save_register_context_eff]
  set sOne := updFiber s0 c
    { s0.fibers c with
      flags := (s0.fibers c).flags ||| MICROBIT_FIBER_FLAG_FOB } with hsOne
  have hOneflags : (sOne.fibers c).flags =
      (s.fibers c).flags ||| MICROBIT_FIBER_FLAG_FOB := by
    rw [hsOne]
    simp [hF]
  obtain ⟨sD, hsd, hDc, hDfid, hDq, hDcur⟩ :=
    fiber_sleep_fob_forks t alloc hw sOne c
      (by rw [hsOne, hs0]; simp [save_register_context_eff, hc])
      (by rw [hOneflags, flag_lor_land_self]; decide)
      (by rw [hsOne, hs0]; simp [save_register_context_eff, hpool])
      (by rw [hsOne, hs0]; simp [save_register_context_eff, hsleep])
      hheap hstk hfr hwd
  have hDpar : (sD.fibers c).flags &&& MICROBIT_FIBER_FLAG_PARENT ≠ 0 := by
    rw [hDc, flag_lor_land_self]
    decide
  set sE := updFiber sD c
    { sD.fibers c with
      flags := (sD.fibers c).flags &&& (255 ^^^ MICROBIT_FIBER_FLAG_FOB) } with hsE
  set sF := updFiber sE c
    { sE.fibers c with
      flags := (sE.fibers c).flags &&& (255 ^^^ MICROBIT_FIBER_FLAG_PARENT) } with hsF
  have heval : fork_on_block_model (some e) true t alloc hw 2 s = some sF := by
    rw [fork_on_block_model, hc]
    dsimp only
    rw [if_neg (show ¬ (some e : Option Nat) = none by simp),
      if_neg (fun hne => hne hfob)]
    rw [← hs0]
    simp only [fob_snapshot_entry]
    rw [if_neg (fun hne => hne (by rw [hF]; exact hpar))]
    simp only [if_true]
    rw [hsd]
    dsimp only [Option.bind]
    rw [if_pos hDpar]
  have hFc : (sF.fibers c).flags =
      ((sD.fibers c).flags &&& (255 ^^^ MICROBIT_FIBER_FLAG_FOB)) &&&
        (255 ^^^ MICROBIT_FIBER_FLAG_PARENT) := by
    rw [hsF]
    simp [hsE]
  refine ⟨sF, heval, ?_, ?_, ?_, ?_⟩
  · rw [hFc, show ((255 ^^^ MICROBIT_FIBER_FLAG_FOB : Nat)) = 254 from by decide,
      show ((255 ^^^ MICROBIT_FIBER_FLAG_PARENT : Nat)) = 253 from by decide,
      MICROBIT_FIBER_FLAG_FOB, Nat.land_assoc,
      show ((253 &&& 1 : Nat)) = 1 from by decide, Nat.land_assoc,
      show ((254 &&& 1 : Nat)) = 0 from by decide]
    simp
  · rw [hFc, show ((255 ^^^ MICROBIT_FIBER_FLAG_FOB : Nat)) = 254 from by decide,
      show ((255 ^^^ MICROBIT_FIBER_FLAG_PARENT : Nat)) = 253 from by decide,
      MICROBIT_FIBER_FLAG_PARENT, Nat.land_assoc,
      show ((253 &&& 2 : Nat)) = 0 from by decide]
    simp
  · have hq : (sF.fibers alloc.freshId).flags = (sD.fibers alloc.freshId).flags := by
      rw [hsF, hsE]
      simp [hfr]
    rw [hq, hDfid]
    decide
  · have hq : (sF.fibers alloc.freshId).queue = (sD.fibers alloc.freshId).queue := by
      rw [hsF, hsE]
      simp [hfr]
    rw [hq, hDq]

theorem fob_child_finish_recycles (hw2 : HW) (s4 : State) (k i2 : FiberId)
    (hc : s4.currentFiber = some k)
    (hch : (s4.fibers k).flags &&& MICROBIT_FIBER_FLAG_CHILD ≠ 0)
    (hidle : s4.idle = some i2) (hik : i2 ≠ k)
    (hpool : s4.head QueueId.pool = none)
    (hq : (s4.fibers k).queue = some QueueId.run)
    (hprev : (s4.fibers k).prev = none) (hnext : (s4.fibers k).next = none)
    (hstack : hw2.stackDepth ≤ (s4.fibers k).stack_top - (s4.fibers k).stack_bottom) :
    ∃ s5, fob_child_finish hw2 s4 = some s5 ∧
      (s5.fibers k).queue = some QueueId.pool ∧
      s5.head QueueId.pool = some k ∧
      (s5.fibers k).flags &&& MICROBIT_FIBER_FLAG_CHILD ≠ 0 := by
  set s1 := updFiber s4 k
    { s4.fibers k with
      flags := (s4.fibers k).flags &&& (255 ^^^ MICROBIT_FIBER_FLAG_FOB) } with hs1
  have h1f : (s1.fibers k).flags =
      (s4.fibers k).flags &&& (255 ^^^ MICROBIT_FIBER_FLAG_FOB) := by
    rw [hs1]
    simp
  have hCH1 : (s1.fibers k).flags &&& MICROBIT_FIBER_FLAG_CHILD ≠ 0 := by
    rw [h1f, show ((255 ^^^ MICROBIT_FIBER_FLAG_FOB : Nat)) = 254 from by decide,
      Nat.land_assoc,
      show ((254 &&& MICROBIT_FIBER_FLAG_CHILD : Nat)) = MICROBIT_FIBER_FLAG_CHILD
        from by decide]
    exact hch
  obtain ⟨s5, heval, hfl, hqp, hhp, _⟩ := release_fiber_pool_eval hw2 s1 k i2
    (by rw [hs1]; simp [hc])
    (by
      rw [h1f, show ((255 ^^^ MICROBIT_FIBER_FLAG_FOB : Nat)) = 254 from by decide,
        Nat.land_assoc, MICROBIT_FIBER_FLAG_FOB,
        show ((254 &&& 1 : Nat)) = 0 from by decide]
      simp)
    (by rw [hs1]; simp [hidle]) hik
    (by rw [hs1]; simp [hpool])
    (by rw [hs1]; simp [hq])
    (by rw [hs1]; simp [hprev])
    (by rw [hs1]; simp [hnext])
    (by rw [hs1]; simpa using hstack)
  refine ⟨s5, ?_, hqp, hhp, ?_⟩
  · rw [fob_child_finish, hc]
    dsimp only
    rw [if_pos hCH1]
    exact heval
  · rw [hfl]
    exact hCH1

theorem fob_nonblocking_eval (t : Nat) (alloc : Alloc) (hw : HW) (s : State)
    (c : FiberId) (e : Nat)
    (hc : s.currentFiber = some c)
    (hfob : (s.fibers c).flags &&& MICROBIT_FIBER_FLAG_FOB = 0)
    (hpar : (s.fibers c).flags &&& MICROBIT_FIBER_FLAG_PARENT = 0)
    (hch : (s.fibers c).flags &&& MICROBIT_FIBER_FLAG_CHILD = 0) :
    ∃ s2, fork_on_block_model (some e) false t alloc hw 2 s = some s2 ∧
      (s2.fibers c).flags &&& MICROBIT_FIBER_FLAG_FOB = 0 ∧
      (s2.fibers c).flags &&& MICROBIT_FIBER_FLAG_PARENT = 0 := by
  have hF : ((save_register_context_eff s c).fibers c).flags = (s.fibers c).flags := by
    simp [save_register_context_eff]
  obtain ⟨s2, hev, hfl⟩ := fob_snapshot_nonblocking t alloc hw c 1
    (save_register_context_eff s c) (by rw [hF]; exact hpar) (by rw [hF]; exact hch)
  refine ⟨s2, ?_, ?_, ?_⟩
  · rw [fork_on_block_model, hc]
    dsimp only
    rw [if_neg (show ¬ (some e : Option Nat) = none by simp),
      if_neg (fun hne => hne hfob)]
    exact hev
  · rw [hfl, hF]
    simp only [MICROBIT_FIBER_FLAG_FOB]
    rw [show ((255 ^^^ 1 : Nat)) = 254 from by decide, Nat.land_assoc,
      show ((254 &&& 1 : Nat)) = 0 from by decide]
    simp
  · rw [hfl, hF]
    simp only [MICROBIT_FIBER_FLAG_FOB, MICROBIT_FIBER_FLAG_PARENT]
    rw [show ((255 ^^^ 1 : Nat)) = 254 from by decide, Nat.land_assoc,
      show ((254 &&& 2 : Nat)) = 2 from by decide,
      flag_lor_land_of_disjoint _ _ _ (by decide)]
    simpa [MICROBIT_FIBER_FLAG_PARENT] using hpar

/-! ### C8: fork-on-block flag discipline -/

/-- Claim C8: on every exit path of `fork_on_block` in the original fiber
the FOB and PARENT flags of that fiber are clear - both in the
non-blocking case (first conjunct) and in the blocking case where the
original is resumed via the PARENT branch (second conjunct, which also
shows the forked fiber carrying CHILD on the sleep queue); and a fiber
carrying the CHILD flag that reaches the end of the handler calls
`release_fiber`, returning its record to the pool (third conjunct). -/
theorem fork_on_block_flag_discipline (s : State) (c : FiberId) (e t : Nat)
    (alloc : Alloc) (hw : HW)
    (hc : s.currentFiber = some c)
    (hfob : (s.fibers c).flags &&& MICROBIT_FIBER_FLAG_FOB = 0)
    (hpar : (s.fibers c).flags &&& MICROBIT_FIBER_FLAG_PARENT = 0) :
    ((s.fibers c).flags &&& MICROBIT_FIBER_FLAG_CHILD = 0 →
      ∃ s2, fork_on_block_model (some e) false t alloc hw 2 s = some s2 ∧
        (s2.fibers c).flags &&& MICROBIT_FIBER_FLAG_FOB = 0 ∧
        (s2.fibers c).flags &&& MICROBIT_FIBER_FLAG_PARENT = 0) ∧
    (s.head QueueId.pool = none → s.head QueueId.sleep = none →
      alloc.heapOk = true → alloc.stackOk = true → alloc.freshId ≠ c →
      hw.stackDepth ≤ FIBER_STACK_SIZE →
      ∃ s2, fork_on_block_model (some e) true t alloc hw 2 s = some s2 ∧
        (s2.fibers c).flags &&& MICROBIT_FIBER_FLAG_FOB = 0 ∧
        (s2.fibers c).flags &&& MICROBIT_FIBER_FLAG_PARENT = 0 ∧
        (s2.fibers alloc.freshId).flags &&& MICROBIT_FIBER_FLAG_CHILD ≠ 0 ∧
        (s2.fibers alloc.freshId).queue = some QueueId.sleep) ∧
    (∀ (s4 : State) (k i2 : FiberId) (hw2 : HW),
      s4.currentFiber = some k →
      (s4.fibers k).flags &&& MICROBIT_FIBER_FLAG_CHILD ≠ 0 →
      s4.idle = some i2 → i2 ≠ k →
      s4.head QueueId.pool = none →
      (s4.fibers k).queue = some QueueId.run →
      (s4.fibers k).prev = none → (s4.fibers k).next = none →
      hw2.stackDepth ≤ (s4.fibers k).stack_top - (s4.fibers k).stack_bottom →
      ∃ s5, fob_child_finish hw2 s4 = some s5 ∧
        (s5.fibers k).queue = some QueueId.pool ∧
        s5.head QueueId.pool = some k ∧
        (s5.fibers k).flags &&& MICROBIT_FIBER_FLAG_CHILD ≠ 0) :=
  ⟨fun hch => fob_nonblocking_eval t alloc hw s c e hc hfob hpar hch,
   fun hp hs hh hk hf hd =>
     fob_blocking_eval t alloc hw s c e hc hfob hpar hp hs hh hk hf hd,
   fun s4 k i2 hw2 h1 h2 h3 h4 h5 h6 h7 h8 h9 =>
     fob_child_finish_recycles hw2 s4 k i2 h1 h2 h3 h4 h5 h6 h7 h8 h9⟩


theorem fork_on_block_flag_discipline_witness :
    (c8State.fibers 0).flags &&& MICROBIT_FIBER_FLAG_FOB = 0 ∧
    ∃ s2, fork_on_block_model (some 1) true 10 ⟨true, true, 5, 4096⟩ ⟨0, 0, 1⟩ 2
        c8State = some s2 ∧
      (s2.fibers 0).flags &&& MICROBIT_FIBER_FLAG_FOB = 0 ∧
      (s2.fibers 0).flags &&& MICROBIT_FIBER_FLAG_PARENT = 0 ∧
      (s2.fibers 5).flags &&& MICROBIT_FIBER_FLAG_CHILD ≠ 0 ∧
      (s2.fibers 5).queue = some QueueId.sleep :=
  ⟨by decide,
    (fork_on_block_flag_discipline c8State 0 1 10 ⟨true, true, 5, 4096⟩ ⟨0, 0, 1⟩
      rfl (by decide) (by decide)).2.1 rfl rfl rfl rfl (by decide) (by decide)⟩

/-! ### C3 toolkit: context preservation and chain lemmas -/

theorem updFiber_fibers_context (s : State) (i : FiberId) (r : Fiber) (j : FiberId)
    (h : r.context = (s.fibers i).context) :
    ((updFiber s i r).fibers j).context = (s.fibers j).context := by
  by_cases hj : j = i
  · subst hj
    simp [h]
  · simp [hj]

theorem dequeue_fiber_context (f : FiberId) (s : State) (j : FiberId) :
    ((dequeue_fiber f s).fibers j).context = (s.fibers j).context := by
  unfold dequeue_fiber
  split
  · rfl
  · split <;> (dsimp only; split) <;> (repeat rw [updFiber_fibers_context]) <;> simp

theorem queue_fiber_context (f : FiberId) (q : QueueId) (s : State) (j : FiberId) :
    ((queue_fiber f q s).fibers j).context = (s.fibers j).context := by
  unfold queue_fiber
  dsimp only
  split <;> (repeat rw [setHead_fibers]) <;> (repeat rw [updFiber_fibers_context]) <;> simp

theorem dequeue_fiber_ticks (f : FiberId) (s : State) :
    (dequeue_fiber f s).ticks = s.ticks := by
  unfold dequeue_fiber
  split
  · rfl
  · split <;> (dsimp only; split) <;> rfl

theorem queue_fiber_ticks (f : FiberId) (q : QueueId) (s : State) :
    (queue_fiber f q s).ticks = s.ticks := by
  unfold queue_fiber
  dsimp only
  split <;> rfl

theorem isChain_queue_mem (s : State) (q : QueueId) :
    ∀ (L : List FiberId) (pv cur : Option FiberId), isChain s q pv cur L →
    ∀ i ∈ L, (s.fibers i).queue = some q := by
  intro L
  induction L with
  | nil =>
    intro pv cur _ i hi
    cases hi
  | cons a L ih =>
    intro pv cur h i hi
    obtain ⟨hcur, hqueue, hprev, hrest⟩ := h
    rcases List.mem_cons.mp hi with rfl | hi
    · exact hqueue
    · exact ih _ _ hrest i hi

theorem isChain_congr (s s2 : State) (q : QueueId) :
    ∀ (L : List FiberId) (pv cur : Option FiberId),
    (∀ i ∈ L, s2.fibers i = s.fibers i) →
    isChain s q pv cur L → isChain s2 q pv cur L := by
  intro L
  induction L with
  | nil =>
    intro pv cur _ h
    exact h
  | cons a L ih =>
    intro pv cur hf h
    obtain ⟨hcur, hqueue, hprev, hrest⟩ := h
    have ha : s2.fibers a = s.fibers a := hf a (by simp)
    refine ⟨hcur, by rw [ha]; exact hqueue, by rw [ha]; exact hprev, ?_⟩
    rw [ha]
    exact ih _ _ (fun i hi => hf i (by simp [hi])) hrest

theorem dequeue_chain_head (s : State) (b : FiberId) (q : QueueId)
    (B2 : List FiberId) (pv : Option FiberId)
    (hbq : (s.fibers b).queue = some q)
    (hbp : (s.fibers b).prev = pv)
    (hchain : isChain s q (some b) (s.fibers b).next B2)
    (hbB : b ∉ B2)
    (hndB : B2.Nodup)
    (hpv : ∀ p, pv = some p → p ≠ b ∧ p ∉ B2) :
    isChain (dequeue_fiber b s) q pv (s.fibers b).next B2 ∧
    (pv = none → (dequeue_fiber b s).head q = (s.fibers b).next) ∧
    (∀ p, pv = some p → (dequeue_fiber b s).fibers p =
      { s.fibers p with next := (s.fibers b).next }) ∧
    (∀ r, r ≠ q → (dequeue_fiber b s).head r = s.head r) ∧
    (pv ≠ none → (dequeue_fiber b s).head q = s.head q) ∧
    ((dequeue_fiber b s).fibers b =
      { s.fibers b with next := none, prev := none, queue := none }) ∧
    (∀ j, j ≠ b → (∀ p, pv = some p → j ≠ p) → j ∉ B2 →
      (dequeue_fiber b s).fibers j = s.fibers j) ∧
    (dequeue_fiber b s).ticks = s.ticks := by
  cases B2 with
  | nil =>
    have hnext : (s.fibers b).next = none := hchain
    cases pv with
    | none =>
      have e : dequeue_fiber b s =
          updFiber (setHead s q none) b
            { s.fibers b with next := none, prev := none, queue := none } := by
        simp only [dequeue_fiber, hbq, hbp, hnext, setHead_fibers]
      refine ⟨?_, ?_, ?_, ?_, ?_, ?_, ?_, ?_⟩
      · exact hnext
      · intro _
        rw [e, hnext]
        simp
      · intro p hp
        exact Option.noConfusion hp
      · intro r hr
        rw [e]
        simp [hr]
      · intro hne
        exact absurd rfl hne
      · rw [e]
        simp
      · intro j hjb _ _
        rw [e]
        simp [hjb]
      · rw [e]
        rfl
    | some p =>
      obtain ⟨hpb, hpB⟩ := hpv p rfl
      have hbpn : b ≠ p := fun h => hpb h.symm
      have e : dequeue_fiber b s =
          updFiber (updFiber s p { s.fibers p with next := none }) b
            { s.fibers b with next := none, prev := none, queue := none } := by
        simp only [dequeue_fiber, hbq, hbp, hnext, updFiber_fibers, if_neg hbpn]
      refine ⟨?_, ?_, ?_, ?_, ?_, ?_, ?_, ?_⟩
      · exact hnext
      · intro h
        exact Option.noConfusion h
      · intro p2 hp2
        cases hp2
        rw [e, hnext]
        simp [hpb]
      · intro r _
        rw [e]
        rfl
      · intro _
        rw [e]
        rfl
      · rw [e]
        simp
      · intro j hjb hjp _
        have hjp2 : j ≠ p := hjp p rfl
        rw [e]
        simp [hjb, hjp2]
      · rw [e]
        rfl
  | cons n B3 =>
    obtain ⟨hn, hnq, hnprev, hnchain⟩ := hchain
    have hbn : b ≠ n := fun h => hbB (by rw [h]; exact List.mem_cons_self _ _)
    have hbB3 : b ∉ B3 := fun h => hbB (List.mem_cons_of_mem _ h)
    obtain ⟨hnB3, hndB3⟩ := List.nodup_cons.mp hndB
    cases pv with
    | none =>
      have e : dequeue_fiber b s =
          updFiber (updFiber (setHead s q (some n)) n
            { s.fibers n with prev := none }) b
            { s.fibers b with next := none, prev := none, queue := none } := by
        simp only [dequeue_fiber, hbq, hbp, hn, setHead_fibers, updFiber_fibers,
          if_neg hbn]
      have hsn : (dequeue_fiber b s).fibers n = { s.fibers n with prev := none } := by
        rw [e]
        simp [Ne.symm hbn]
      have hframe : ∀ j, j ≠ b → j ≠ n → (dequeue_fiber b s).fibers j = s.fibers j := by
        intro j h1 h2
        rw [e]
        simp [h1, h2]
      refine ⟨?_, ?_, ?_, ?_, ?_, ?_, ?_, ?_⟩
      · refine ⟨hn, ?_, ?_, ?_⟩
        · rw [hsn]
          exact hnq
        · rw [hsn]
        · rw [hsn]
          exact isChain_congr s _ q B3 (some n) ((s.fibers n).next)
            (fun i hi => hframe i (fun hh => hbB3 (hh ▸ hi)) (fun hh => hnB3 (hh ▸ hi)))
            hnchain
      · intro _
        rw [e, hn]
        simp
      · intro p hp
        exact Option.noConfusion hp
      · intro r hr
        rw [e]
        simp [hr]
      · intro hne
        exact absurd rfl hne
      · rw [e]
        simp
      · intro j hjb _ hjB
        exact hframe j hjb (fun hh => hjB (by rw [hh]; exact List.mem_cons_self _ _))
      · rw [e]
        rfl
    | some p =>
      obtain ⟨hpb, hpB⟩ := hpv p rfl
      have hbpn : b ≠ p := fun h => hpb h.symm
      have hpn : p ≠ n := fun h => hpB (by rw [h]; exact List.mem_cons_self _ _)
      have hnp : n ≠ p := fun h => hpn h.symm
      have e : dequeue_fiber b s =
          updFiber (updFiber (updFiber s p { s.fibers p with next := some n }) n
            { s.fibers n with prev := some p }) b
            { s.fibers b with next := none, prev := none, queue := none } := by
        simp only [dequeue_fiber, hbq, hbp, hn, updFiber_fibers, if_neg hbpn,
          if_neg hbn, if_neg hnp]
      have hsn : (dequeue_fiber b s).fibers n = { s.fibers n with prev := some p } := by
        rw [e]
        simp [Ne.symm hbn]
      have hframe : ∀ j, j ≠ b → j ≠ n → j ≠ p →
          (dequeue_fiber b s).fibers j = s.fibers j := by
        intro j h1 h2 h3
        rw [e]
        simp [h1, h2, h3]
      refine ⟨?_, ?_, ?_, ?_, ?_, ?_, ?_, ?_⟩
      · refine ⟨hn, ?_, ?_, ?_⟩
        · rw [hsn]
          exact hnq
        · rw [hsn]
        · rw [hsn]
          exact isChain_congr s _ q B3 (some n) ((s.fibers n).next)
            (fun i hi => hframe i (fun hh => hbB3 (hh ▸ hi)) (fun hh => hnB3 (hh ▸ hi))
              (fun hh => hpB (by rw [← hh]; exact List.mem_cons_of_mem _ hi)))
            hnchain
      · intro h
        exact Option.noConfusion h
      · intro p2 hp2
        cases hp2
        rw [e, hn]
        simp [hpb, hpn]
      · intro r _
        rw [e]
        rfl
      · intro _
        rw [e]
        rfl
      · rw [e]
        simp
      · intro j hjb hjp hjB
        exact hframe j hjb (fun hh => hjB (by rw [hh]; exact List.mem_cons_self _ _))
          (hjp p rfl)
      · rw [e]
        rfl

theorem enqueue_run (s0 s : State) (b : FiberId) (R : List FiberId)
    (hhr : s0.head QueueId.run = s.head QueueId.run)
    (hR : isChain s QueueId.run none (s.head QueueId.run) R)
    (hRnd : R.Nodup)
    (hfrR : ∀ j ∈ R, s0.fibers j = s.fibers j)
    (hbR : b ∉ R) :
    (queue_fiber b QueueId.run s0).head QueueId.run = some b ∧
    isChain (queue_fiber b QueueId.run s0) QueueId.run none (some b) (b :: R) ∧
    (∀ j, j ≠ b → j ∉ R → (queue_fiber b QueueId.run s0).fibers j = s0.fibers j) ∧
    (∀ r, r ≠ QueueId.run → (queue_fiber b QueueId.run s0).head r = s0.head r) := by
  cases R with
  | nil =>
    have hg : s.head QueueId.run = none := hR
    have e : queue_fiber b QueueId.run s0 =
        setHead (updFiber s0 b
          { s0.fibers b with queue := some QueueId.run, next := none, prev := none })
          QueueId.run (some b) := by
      simp only [queue_fiber, updFiber_head, hhr, hg]
    refine ⟨?_, ?_, ?_, ?_⟩
    · rw [e]
      simp
    · refine ⟨rfl, ?_, ?_, ?_⟩
      · rw [e]
        simp
      · rw [e]
        simp
      · show _ = none
        rw [e]
        simp
    · intro j hjb _
      rw [e]
      simp [hjb]
    · intro r hr
      rw [e]
      simp [hr]
  | cons g R2 =>
    obtain ⟨hcur, hgq, hgprev, hgchain⟩ := hR
    have hbg : b ≠ g := fun h => hbR (by rw [h]; exact List.mem_cons_self _ _)
    have hgb : g ≠ b := Ne.symm hbg
    have hbR2 : b ∉ R2 := fun h => hbR (List.mem_cons_of_mem _ h)
    obtain ⟨hgR2, hndR2⟩ := List.nodup_cons.mp hRnd
    have hfg : s0.fibers g = s.fibers g := hfrR g (List.mem_cons_self _ _)
    have e : queue_fiber b QueueId.run s0 =
        setHead (updFiber (updFiber s0 b
          { s0.fibers b with queue := some QueueId.run, next := some g, prev := none }) g
          { s.fibers g with prev := some b })
          QueueId.run (some b) := by
      simp only [queue_fiber, updFiber_head, hhr, hcur, updFiber_fibers, if_neg hgb, hfg]
    have hresb : (queue_fiber b QueueId.run s0).fibers b =
        { s0.fibers b with queue := some QueueId.run, next := some g, prev := none } := by
      rw [e]
      simp [hbg]
    have hresg : (queue_fiber b QueueId.run s0).fibers g =
        { s.fibers g with prev := some b } := by
      rw [e]
      simp
    have hframe : ∀ j, j ≠ b → j ≠ g →
        (queue_fiber b QueueId.run s0).fibers j = s0.fibers j := by
      intro j h1 h2
      rw [e]
      simp [h1, h2]
    refine ⟨?_, ?_, ?_, ?_⟩
    · rw [e]
      simp
    · refine ⟨rfl, ?_, ?_, ?_⟩
      · rw [hresb]
      · rw [hresb]
      · rw [hresb]
        show isChain _ QueueId.run (some b) (some g) (g :: R2)
        refine ⟨rfl, ?_, ?_, ?_⟩
        · rw [hresg]
          exact hgq
        · rw [hresg]
        · rw [hresg]
          show isChain _ QueueId.run (some g) ((s.fibers g).next) R2
          refine isChain_congr s _ QueueId.run R2 (some g) ((s.fibers g).next) ?_ hgchain
          intro i hi
          rw [hframe i (fun hh => hbR2 (hh ▸ hi)) (fun hh => hgR2 (hh ▸ hi))]
          exact hfrR i (List.mem_cons_of_mem _ hi)
    · intro j hjb hjR
      exact hframe j hjb (fun hh => hjR (by rw [hh]; exact List.mem_cons_self _ _))
    · intro r hr
      rw [e]
      simp [hr]

theorem wake_step (q : QueueId) (hq : q ≠ QueueId.run) (s : State) (b : FiberId)
    (B2 R : List FiberId) (pv : Option FiberId)
    (hch : isChain s q pv (some b) (b :: B2))
    (hnd : (b :: B2).Nodup)
    (hR : isChain s QueueId.run none (s.head QueueId.run) R)
    (hRnd : R.Nodup)
    (hpv : ∀ p, pv = some p → (s.fibers p).next = some b ∧
      (s.fibers p).queue = some q ∧ p ∉ b :: B2) :
    isChain (queue_fiber b QueueId.run (dequeue_fiber b s)) q pv (s.fibers b).next B2 ∧
    isChain (queue_fiber b QueueId.run (dequeue_fiber b s)) QueueId.run none
      ((queue_fiber b QueueId.run (dequeue_fiber b s)).head QueueId.run) (b :: R) ∧
    (b :: R).Nodup ∧
    (pv = none → (queue_fiber b QueueId.run (dequeue_fiber b s)).head q =
      (s.fibers b).next) ∧
    (∀ p, pv = some p →
      (queue_fiber b QueueId.run (dequeue_fiber b s)).head q = s.head q ∧
      ((queue_fiber b QueueId.run (dequeue_fiber b s)).fibers p).next =
        (s.fibers b).next ∧
      ((queue_fiber b QueueId.run (dequeue_fiber b s)).fibers p).prev =
        (s.fibers p).prev ∧
      ((queue_fiber b QueueId.run (dequeue_fiber b s)).fibers p).queue = some q ∧
      p ∉ B2) ∧
    (∀ j, ((queue_fiber b QueueId.run (dequeue_fiber b s)).fibers j).context =
      (s.fibers j).context) ∧
    (∀ j, j ∉ b :: B2 → j ∉ R → (∀ p, pv = some p → j ≠ p) →
      (queue_fiber b QueueId.run (dequeue_fiber b s)).fibers j = s.fibers j) ∧
    (queue_fiber b QueueId.run (dequeue_fiber b s)).ticks = s.ticks := by
  obtain ⟨hcurb, hbq, hbp, hchain2⟩ := hch
  obtain ⟨hbB2, hndB2⟩ := List.nodup_cons.mp hnd
  have hmemq : ∀ i ∈ b :: B2, (s.fibers i).queue = some q :=
    fun i hi => isChain_queue_mem s q (b :: B2) pv (some b)
      ⟨hcurb, hbq, hbp, hchain2⟩ i hi
  have hmemR : ∀ i ∈ R, (s.fibers i).queue = some QueueId.run :=
    fun i hi => isChain_queue_mem s QueueId.run R none (s.head QueueId.run) hR i hi
  have hBR : ∀ i, i ∈ b :: B2 → i ∉ R :=
    fun i h1 h2 => hq (Option.some.inj ((hmemq i h1).symm.trans (hmemR i h2)))
  have hbR : b ∉ R := hBR b (List.mem_cons_self _ _)
  obtain ⟨D1, D2, D3, D4, D5, D6, D7, D8⟩ :=
    dequeue_chain_head s b q B2 pv hbq hbp hchain2 hbB2 hndB2
      (fun p hp =>
        ⟨fun h => (hpv p hp).2.2 (by rw [h]; exact List.mem_cons_self _ _),
         fun h => (hpv p hp).2.2 (List.mem_cons_of_mem _ h)⟩)
  have hpR : ∀ p, pv = some p → p ∉ R := fun p hp hmem =>
    hq (Option.some.inj (((hpv p hp).2.1).symm.trans (hmemR p hmem)))
  obtain ⟨E1, E2, E3, E4⟩ := enqueue_run (dequeue_fiber b s) s b R
    (D4 QueueId.run (Ne.symm hq)) hR hRnd
    (fun j hj => D7 j (fun h => hbR (h ▸ hj))
      (fun p hp h => hpR p hp (h ▸ hj))
      (fun h => hBR j (List.mem_cons_of_mem _ h) hj))
    hbR
  refine ⟨?_, ?_, ?_, ?_, ?_, ?_, ?_, ?_⟩
  · refine isChain_congr (dequeue_fiber b s) _ q B2 pv ((s.fibers b).next) ?_ D1
    intro i hi
    exact E3 i (fun h => hbB2 (h ▸ hi)) (hBR i (List.mem_cons_of_mem _ hi))
  · exact ⟨E1, E2.2.1, E2.2.2.1, E2.2.2.2⟩
  · exact List.nodup_cons.mpr ⟨hbR, hRnd⟩
  · intro hpvn
    rw [E4 q hq, D2 hpvn]
  · intro p hp
    have hpb : p ≠ b := fun h => (hpv p hp).2.2 (by rw [h]; exact List.mem_cons_self _ _)
    have hfp : (queue_fiber b QueueId.run (dequeue_fiber b s)).fibers p =
        { s.fibers p with next := (s.fibers b).next } := by
      rw [E3 p hpb (hpR p hp)]
      exact D3 p hp
    refine ⟨?_, ?_, ?_, ?_, ?_⟩
    · rw [E4 q hq]
      exact D5 (by rw [hp]; exact fun h => Option.noConfusion h)
    · rw [hfp]
    · rw [hfp]
    · rw [hfp]
      exact (hpv p hp).2.1
    · exact fun h => (hpv p hp).2.2 (List.mem_cons_of_mem _ h)
  · intro j
    exact (queue_fiber_context b QueueId.run (dequeue_fiber b s) j).trans
      (dequeue_fiber_context b s j)
  · intro j hjB hjR hjp
    rw [E3 j (fun h => hjB (by rw [h]; exact List.mem_cons_self _ _)) hjR]
    exact D7 j (fun h => hjB (by rw [h]; exact List.mem_cons_self _ _)) hjp
      (fun h => hjB (List.mem_cons_of_mem _ h))
  · exact (queue_fiber_ticks b QueueId.run (dequeue_fiber b s)).trans
      (dequeue_fiber_ticks b s)

theorem wake_walk_none (pred : Nat → Bool) (s : State) (fuel : Nat) :
    wake_walk pred s none fuel = s := by
  cases fuel <;> rfl

theorem wake_walk_some (pred : Nat → Bool) (s : State) (i : FiberId)
    (fuel : Nat) :
    wake_walk pred s (some i) (fuel + 1) =
    wake_walk pred
      (if pred (s.fibers i).context then
        queue_fiber i QueueId.run (dequeue_fiber i s)
      else s)
      ((s.fibers i).next) fuel := rfl

theorem wake_walk_chain (pred : Nat → Bool) (q : QueueId)
    (hq : q ≠ QueueId.run) :
    ∀ (B : List FiberId) (s : State) (pv cur : Option FiberId)
      (R : List FiberId) (fuel : Nat),
    isChain s q pv cur B →
    B.Nodup →
    isChain s QueueId.run none (s.head QueueId.run) R →
    R.Nodup →
    (pv = none → s.head q = cur) →
    (∀ p, pv = some p → (s.fibers p).next = cur ∧
      (s.fibers p).queue = some q ∧ p ∉ B) →
    B.length ≤ fuel →
    isChain (wake_walk pred s cur fuel) q pv
      (B.filter (fun i => !(pred (s.fibers i).context))).head?
      (B.filter (fun i => !(pred (s.fibers i).context))) ∧
    isChain (wake_walk pred s cur fuel) QueueId.run none
      ((wake_walk pred s cur fuel).head QueueId.run)
      ((B.filter (fun i => pred (s.fibers i).context)).reverse ++ R) ∧
    ((B.filter (fun i => pred (s.fibers i).context)).reverse ++ R).Nodup ∧
    (pv = none → (wake_walk pred s cur fuel).head q =
      (B.filter (fun i => !(pred (s.fibers i).context))).head?) ∧
    (∀ p, pv = some p →
      (wake_walk pred s cur fuel).head q = s.head q ∧
      ((wake_walk pred s cur fuel).fibers p).next =
        (B.filter (fun i => !(pred (s.fibers i).context))).head? ∧
      ((wake_walk pred s cur fuel).fibers p).prev = (s.fibers p).prev ∧
      ((wake_walk pred s cur fuel).fibers p).queue = some q) ∧
    (∀ j, ((wake_walk pred s cur fuel).fibers j).context =
      (s.fibers j).context) ∧
    (∀ j, j ∉ B → j ∉ R → (∀ p, pv = some p → j ≠ p) →
      (wake_walk pred s cur fuel).fibers j = s.fibers j) ∧
    (wake_walk pred s cur fuel).ticks = s.ticks := by
  intro B
  induction B with
  | nil =>
    intro s pv cur R fuel hch hnd hR hRnd hanchor hpv hfuel
    have hcur : cur = none := hch
    subst hcur
    rw [wake_walk_none]
    refine ⟨rfl, hR, hRnd, fun h => hanchor h, ?_, fun j => rfl,
      fun j _ _ _ => rfl, rfl⟩
    intro p hp
    exact ⟨rfl, (hpv p hp).1, rfl, (hpv p hp).2.1⟩
  | cons b B2 ih =>
    intro s pv cur R fuel hch hnd hR hRnd hanchor hpv hfuel
    obtain ⟨hcurb, hbq, hbp, hch2⟩ := hch
    subst hcurb
    cases fuel with
    | zero => exact absurd hfuel (Nat.not_succ_le_zero _)
    | succ fuel2 =>
    have hfuel2 : B2.length ≤ fuel2 := Nat.le_of_succ_le_succ hfuel
    have hbB2 : b ∉ B2 := (List.nodup_cons.mp hnd).1
    have hnd2 : B2.Nodup := (List.nodup_cons.mp hnd).2
    have hmemR : ∀ i ∈ R, (s.fibers i).queue = some QueueId.run :=
      isChain_queue_mem s QueueId.run R none (s.head QueueId.run) hR
    have hpR : ∀ p, pv = some p → p ∉ R := fun p hp hm =>
      hq (Option.some.inj (((hpv p hp).2.1).symm.trans (hmemR p hm)))
    rw [wake_walk_some]
    cases hpb : pred (s.fibers b).context with
    | false =>
      rw [if_neg Bool.false_ne_true]
      obtain ⟨I1, I2, I3, I4, I5, I6, I7, I8⟩ :=
        ih s (some b) ((s.fibers b).next) R fuel2 hch2 hnd2 hR hRnd
          (fun h => nomatch h)
          (fun p hp => by
            cases Option.some.inj hp
            exact ⟨rfl, hbq, hbB2⟩)
          hfuel2
      obtain ⟨J1, J2, J3, J4⟩ := I5 b rfl
      simp only [List.filter_cons, hpb, Bool.not_false, Bool.not_true,
        eq_self_iff_true, if_true, Bool.false_eq_true, if_false,
        List.head?_cons]
      refine ⟨⟨rfl, J4, ?_, ?_⟩, I2, I3, ?_, ?_, I6, ?_, I8⟩
      · rw [J3]
        exact hbp
      · rw [J2]
        exact I1
      · intro h
        rw [J1]
        exact hanchor h
      · intro p hp
        have hpmem : p ∉ b :: B2 := (hpv p hp).2.2
        have hpb2 : p ≠ b := fun h => hpmem (h ▸ List.mem_cons_self _ _)
        have hpB2 : p ∉ B2 := fun h => hpmem (List.mem_cons_of_mem _ h)
        have hfr : (wake_walk pred s ((s.fibers b).next) fuel2).fibers p =
            s.fibers p :=
          I7 p hpB2 (hpR p hp)
            (fun p2 hp2 => by cases Option.some.inj hp2; exact hpb2)
        refine ⟨J1, ?_, ?_, ?_⟩
        · rw [hfr]
          exact (hpv p hp).1
        · rw [hfr]
        · rw [hfr]
          exact (hpv p hp).2.1
      · intro j hjB hjR hjp
        exact I7 j (fun h => hjB (List.mem_cons_of_mem _ h)) hjR
          (fun p2 hp2 => by
            cases Option.some.inj hp2
            exact fun h => hjB (h ▸ List.mem_cons_self _ _))
    | true =>
      rw [if_pos rfl]
      obtain ⟨W1, W2, W3, W4, W5, W6, W7, W8⟩ :=
        wake_step q hq s b B2 R pv ⟨rfl, hbq, hbp, hch2⟩ hnd hR hRnd
          (fun p hp => ⟨(hpv p hp).1, (hpv p hp).2.1, (hpv p hp).2.2⟩)
      obtain ⟨I1, I2, I3, I4, I5, I6, I7, I8⟩ :=
        ih (queue_fiber b QueueId.run (dequeue_fiber b s)) pv
          ((s.fibers b).next) (b :: R) fuel2 W1 hnd2 W2 W3 W4
          (fun p hp =>
            ⟨(W5 p hp).2.1, (W5 p hp).2.2.2.1, (W5 p hp).2.2.2.2⟩)
          hfuel2
      have hfk : B2.filter (fun i =>
            !(pred (((queue_fiber b QueueId.run
              (dequeue_fiber b s)).fibers i).context))) =
          B2.filter (fun i => !(pred ((s.fibers i).context))) :=
        List.filter_congr (fun i _ => by rw [W6 i])
      have hfw : B2.filter (fun i =>
            pred (((queue_fiber b QueueId.run
              (dequeue_fiber b s)).fibers i).context)) =
          B2.filter (fun i => pred ((s.fibers i).context)) :=
        List.filter_congr (fun i _ => by rw [W6 i])
      rw [hfk] at I1 I4
      rw [hfw] at I2 I3
      simp only [List.filter_cons, hpb, Bool.not_false, Bool.not_true,
        eq_self_iff_true, if_true, Bool.false_eq_true, if_false,
        List.head?_cons]
      rw [List.reverse_cons, List.append_assoc, List.singleton_append]
      refine ⟨I1, I2, I3, I4, ?_, fun j => (I6 j).trans (W6 j), ?_,
        I8.trans W8⟩
      · intro p hp
        obtain ⟨J1, J2, J3, J4⟩ := I5 p hp
        obtain ⟨V1, V2, V3, V4, V5⟩ := W5 p hp
        rw [hfk] at J2
        exact ⟨J1.trans V1, J2, J3.trans V3, J4⟩
      · intro j hjB hjR hjp
        have hjb : j ≠ b := fun h => hjB (h ▸ List.mem_cons_self _ _)
        have hjB2 : j ∉ B2 := fun h => hjB (List.mem_cons_of_mem _ h)
        have hjbR : j ∉ b :: R := fun h =>
          (List.mem_cons.mp h).elim (fun he => hjb he) hjR
        exact (I7 j hjB2 hjbR hjp).trans (W7 j hjB hjR hjp)


/-- C3: `fiber_sleep(t)` called with the tick counter at `s.ticks` stores
the wake deadline `ticks + t` in the blocked fiber's context and places it
at the head of the sleep queue before entering the scheduler; and each
`scheduler_tick` invocation first advances `ticks` by the tick period and
then moves exactly the sleep-queue fibers whose stored deadline is at most
the new `ticks` value to the run queue, leaving the others on the sleep
queue in order. -/
theorem sleep_stores_deadline_and_tick_wakes
    (t period fuel : Nat) (alloc : Alloc) (hw : HW) (s : State) (c : FiberId)
    (L R : List FiberId)
    (hc : s.currentFiber = some c)
    (hfob : (s.fibers c).flags &&& MICROBIT_FIBER_FLAG_FOB = 0)
    (hL : isChain s QueueId.sleep none (s.head QueueId.sleep) L)
    (hLnd : L.Nodup)
    (hR : isChain s QueueId.run none (s.head QueueId.run) R)
    (hRnd : R.Nodup)
    (hfuel : L.length ≤ fuel)
    (hnowrap : s.ticks + period < 2 ^ 32) :
    (∃ s4, fiber_sleep t alloc hw s = schedule hw s4 ∧
      (s4.fibers c).context = (s.ticks + t) % 2 ^ 32 ∧
      s4.head QueueId.sleep = some c ∧
      (s4.fibers c).queue = some QueueId.sleep) ∧
    (scheduler_tick period fuel s).ticks = s.ticks + period ∧
    (scheduler_tick period fuel s).head QueueId.sleep =
      (L.filter (fun i =>
        !(decide ((s.fibers i).context ≤ s.ticks + period)))).head? ∧
    isChain (scheduler_tick period fuel s) QueueId.sleep none
      ((scheduler_tick period fuel s).head QueueId.sleep)
      (L.filter (fun i =>
        !(decide ((s.fibers i).context ≤ s.ticks + period)))) ∧
    isChain (scheduler_tick period fuel s) QueueId.run none
      ((scheduler_tick period fuel s).head QueueId.run)
      ((L.filter (fun i =>
        decide ((s.fibers i).context ≤ s.ticks + period))).reverse ++ R) ∧
    (∀ j, ((scheduler_tick period fuel s).fibers j).context =
      (s.fibers j).context) := by
  have hticks : (s.ticks + period) % 2 ^ 32 = s.ticks + period :=
    Nat.mod_eq_of_lt hnowrap
  have heq : scheduler_tick period fuel s =
      wake_walk (fun ctx => decide (ctx ≤ s.ticks + period))
        { s with ticks := s.ticks + period } (s.head QueueId.sleep) fuel := by
    unfold scheduler_tick
    dsimp only
    simp only [hticks]
  obtain ⟨P1, P2, P3, P4, P5, P6, P7, P8⟩ :=
    wake_walk_chain (fun ctx => decide (ctx ≤ s.ticks + period)) QueueId.sleep
      (fun h => QueueId.noConfusion h) L { s with ticks := s.ticks + period }
      none (s.head QueueId.sleep) R fuel
      (isChain_congr s { s with ticks := s.ticks + period } QueueId.sleep L
        none (s.head QueueId.sleep) (fun i _ => rfl) hL)
      hLnd
      (isChain_congr s { s with ticks := s.ticks + period } QueueId.run R
        none (s.head QueueId.run) (fun i _ => rfl) hR)
      hRnd (fun _ => rfl) (fun p hp => nomatch hp) hfuel
  rw [heq]
  refine ⟨?_, P8, P4 rfl, ?_, P2, fun j => P6 j⟩
  · refine ⟨queue_fiber c QueueId.sleep (dequeue_fiber c (updFiber s c
      { s.fibers c with context := (s.ticks + t) % 2 ^ 32 })), ?_, ?_,
      queue_fiber_head_self _ _ _, queue_fiber_queue_self _ _ _⟩
    · unfold fiber_sleep
      rw [hc]
      dsimp only
      rw [if_neg (fun h => h hfob)]
    · rw [queue_fiber_context, dequeue_fiber_context]
      simp
  · rw [P4 rfl]
    exact P1

theorem sleep_stores_deadline_and_tick_wakes_witness :
    (scheduler_tick 1 2 c3State).ticks = 100 ∧
    (scheduler_tick 1 2 c3State).head QueueId.sleep = some 2 ∧
    isChain (scheduler_tick 1 2 c3State) QueueId.sleep none
      ((scheduler_tick 1 2 c3State).head QueueId.sleep) [2] ∧
    isChain (scheduler_tick 1 2 c3State) QueueId.run none
      ((scheduler_tick 1 2 c3State).head QueueId.run) [1, 0] ∧
    (∃ s4, fiber_sleep 100 ⟨true, true, 7, 0⟩ ⟨0, 0, 0⟩ c3State =
        schedule ⟨0, 0, 0⟩ s4 ∧
      (s4.fibers 0).context = 199 ∧ s4.head QueueId.sleep = some 0 ∧
      (s4.fibers 0).queue = some QueueId.sleep) := by
  obtain ⟨ha, ht, hh, hs, hr, _⟩ :=
    sleep_stores_deadline_and_tick_wakes 100 1 2 ⟨true, true, 7, 0⟩ ⟨0, 0, 0⟩
      c3State 0 [1, 2] [0] rfl (by decide)
      ⟨rfl, rfl, rfl, rfl, rfl, rfl, rfl⟩ (by decide)
      ⟨rfl, rfl, rfl, rfl⟩ (by decide) (by decide) (by decide)
  have ek : List.filter (fun i =>
      !(decide ((c3State.fibers i).context ≤ c3State.ticks + 1))) [1, 2] =
      [2] := by decide
  have ew : (List.filter (fun i =>
      decide ((c3State.fibers i).context ≤ c3State.ticks + 1))
        [1, 2]).reverse ++ [0] = [1, 0] := by decide
  rw [ek] at hh hs
  rw [ew] at hr
  refine ⟨ht, hh, hs, hr, ?_⟩
  obtain ⟨s4, he, hctx, hhd, hqf⟩ := ha
  refine ⟨s4, he, ?_, hhd, hqf⟩
  rw [hctx]
  decide

end MicroBitFiber





